import Mathlib

/-!
# Verification of the Whatsmeow-rust protocol core

Shallow embedding of the repository's binary tree codec (`src/binary/`),
token dictionary, JID encoding, and Noise-handshake components
(`src/crypto/`, `src/socket/handshake.rs`), together with proofs and
refutations of the frozen specification claims.

Bytes are modelled as `List Nat` with each element `< 256` at the points
where the source casts to `u8`; machine integers are `Nat` with explicit
`% 2^w` where the source truncates or wraps.

External crates (`sha2`, `hmac`, `x25519_dalek`, `aes_gcm`) are not part
of the repository; they are modelled from the spec where needed
(SHA-256 / HKDF per FIPS 180-4 and RFC 5869 as the spec demands
RFC-conformance; X25519 as scalar multiplication in a commutative
structure; AES-256-GCM as an abstract AEAD interface).
-/

namespace WM

/-- Big-endian bytes of a 32-bit counter (`u32::to_be_bytes`). -/
def be32 (n : Nat) : List Nat :=
  [(n >>> 24) % 256, (n >>> 16) % 256, (n >>> 8) % 256, n % 256]

/-- Big-endian bytes of a 64-bit counter (`u64::to_be_bytes`). -/
def be64 (n : Nat) : List Nat :=
  [(n >>> 56) % 256, (n >>> 48) % 256, (n >>> 40) % 256, (n >>> 32) % 256,
   (n >>> 24) % 256, (n >>> 16) % 256, (n >>> 8) % 256, n % 256]

/-- Little-endian byte list of fixed width (X25519 keys are 32 LE bytes). -/
def natToLE : Nat → Nat → List Nat
  | 0, _ => []
  | len + 1, n => n % 256 :: natToLE len (n / 256)

/-- Read a little-endian byte list back as a natural number. -/
def leToNat : List Nat → Nat
  | [] => 0
  | b :: rest => b + 256 * leToNat rest

namespace SHA256

/-! ## SHA-256, modelled from the spec.
The repository uses the external `sha2` crate; the spec fixes the hash to
SHA-256, so we implement FIPS 180-4 SHA-256 executably over `Nat` words
reduced mod `2^32`. -/

def M32 : Nat := 4294967296

/- The word operations call the `Nat` primitives directly (`x + y` is
definitionally `Nat.add x y`, and so on): the kernel folds these in one
step, where the generic arithmetic notation would interpose several
instance unfoldings per operation. -/

def add32 (a b : Nat) : Nat := Nat.mod (Nat.add a b) 4294967296

def rotr (n x : Nat) : Nat :=
  Nat.mod (Nat.lor (Nat.shiftRight x n) (Nat.shiftLeft x (Nat.sub 32 n))) 4294967296

def bigSigma0 (x : Nat) : Nat := Nat.xor (Nat.xor (rotr 2 x) (rotr 13 x)) (rotr 22 x)
def bigSigma1 (x : Nat) : Nat := Nat.xor (Nat.xor (rotr 6 x) (rotr 11 x)) (rotr 25 x)
def smallSigma0 (x : Nat) : Nat :=
  Nat.xor (Nat.xor (rotr 7 x) (rotr 18 x)) (Nat.shiftRight x 3)
def smallSigma1 (x : Nat) : Nat :=
  Nat.xor (Nat.xor (rotr 17 x) (rotr 19 x)) (Nat.shiftRight x 10)

def ch (x y z : Nat) : Nat :=
  Nat.xor (Nat.land x y) (Nat.land (Nat.sub 4294967295 x) z)
def maj (x y z : Nat) : Nat :=
  Nat.xor (Nat.xor (Nat.land x y) (Nat.land x z)) (Nat.land y z)

def K : List Nat :=
  [1116352408, 1899447441, 3049323471, 3921009573, 961987163, 1508970993,
   2453635748, 2870763221, 3624381080, 310598401, 607225278, 1426881987,
   1925078388, 2162078206, 2614888103, 3248222580, 3835390401, 4022224774,
   264347078, 604807628, 770255983, 1249150122, 1555081692, 1996064986,
   2554220882, 2821834349, 2952996808, 3210313671, 3336571891, 3584528711,
   113926993, 338241895, 666307205, 773529912, 1294757372, 1396182291,
   1695183700, 1986661051, 2177026350, 2456956037, 2730485921, 2820302411,
   3259730800, 3345764771, 3516065817, 3600352804, 4094571909, 275423344,
   430227734, 506948616, 659060556, 883997877, 958139571, 1322822218,
   1537002063, 1747873779, 1955562222, 2024104815, 2227730452, 2361852424,
   2428436474, 2756734187, 3204031479, 3329325298]

def H0 : List Nat :=
  [0x6a09e667, 0xbb67ae85, 0x3c6ef372, 0xa54ff53a,
   0x510e527f, 0x9b05688c, 0x1f83d9ab, 0x5be0cd19]

/-- Group big-endian bytes into 32-bit words. -/
def toWords : List Nat → List Nat
  | b0 :: b1 :: b2 :: b3 :: rest =>
      Nat.add (Nat.mul (Nat.add (Nat.mul (Nat.add (Nat.mul b0 256) b1) 256) b2) 256) b3 ::
        toWords rest
  | _ => []

/-- Extend the 16 message words to 64 (FIPS 180-4 §6.2.2 step 1:
`W[t] = σ1(W[t-2]) + W[t-7] + σ0(W[t-15]) + W[t-16]`), carrying the
sliding window `W[t-16] .. W[t-1]` as sixteen arguments. -/
def extendW (n w0 w1 w2 w3 w4 w5 w6 w7 w8 w9 w10 w11 w12 w13 w14 w15 : Nat) :
    List Nat :=
  match n with
  | 0 => []
  | n + 1 =>
      let nw := add32 (add32 (smallSigma1 w14) w9) (add32 (smallSigma0 w1) w0)
      nw :: extendW n w1 w2 w3 w4 w5 w6 w7 w8 w9 w10 w11 w12 w13 w14 w15 nw
  termination_by structural n

/-- The 64-entry message schedule of a 16-word block. -/
def schedule (ws : List Nat) : List Nat :=
  match ws with
  | [w0, w1, w2, w3, w4, w5, w6, w7, w8, w9, w10, w11, w12, w13, w14, w15] =>
      ws ++ extendW 48 w0 w1 w2 w3 w4 w5 w6 w7 w8 w9 w10 w11 w12 w13 w14 w15
  | _ => ws

/-- The 64 rounds of the compression loop, consuming the constant and
schedule word lists in step and carrying the eight working variables as
plain arguments. -/
def rounds : List Nat → List Nat → Nat → Nat → Nat → Nat → Nat → Nat → Nat → Nat →
    List Nat
  | k :: ks, w :: ws, a, b, c, d, e, f, g, h =>
      let t1 := add32 (add32 (add32 h (bigSigma1 e)) (add32 (ch e f g) k)) w
      let t2 := add32 (bigSigma0 a) (maj a b c)
      rounds ks ws (add32 t1 t2) a b c (add32 d t1) e f g
  | _, _, a, b, c, d, e, f, g, h => [a, b, c, d, e, f, g, h]

/-- Compress one 16-word block into the running hash state. -/
def compress (hs : List Nat) (block : List Nat) : List Nat :=
  List.zipWith add32 hs
    (rounds K (schedule block) (hs.getD 0 0) (hs.getD 1 0) (hs.getD 2 0) (hs.getD 3 0)
      (hs.getD 4 0) (hs.getD 5 0) (hs.getD 6 0) (hs.getD 7 0))

/-- FIPS 180-4 padding: `0x80`, zeros, then the 64-bit big-endian bit length. -/
def pad (msg : List Nat) : List Nat :=
  let l := msg.length
  let zeros := (56 + 64 - ((l + 1) % 64)) % 64
  msg ++ [0x80] ++ List.replicate zeros 0 ++ be64 ((8 * l) % (2 ^ 64))

/-- Split a padded message's words into 16-word blocks. -/
def blocks : List Nat → List (List Nat)
  | w0 :: w1 :: w2 :: w3 :: w4 :: w5 :: w6 :: w7 ::
      w8 :: w9 :: w10 :: w11 :: w12 :: w13 :: w14 :: w15 :: rest =>
      [w0, w1, w2, w3, w4, w5, w6, w7, w8, w9, w10, w11, w12, w13, w14, w15] :: blocks rest
  | _ => []

/-- SHA-256 digest (32 bytes) of a byte list. -/
def sha256 (msg : List Nat) : List Nat :=
  ((blocks (toWords (pad msg))).foldl compress H0).flatMap (fun w => be32 w)

end SHA256

export SHA256 (sha256)

/-! ## HMAC-SHA256 and HKDF

`hmac` models the external `hmac` crate (RFC 2104); `Hkdf` is embedded from
the repository's `src/crypto/hkdf.rs`, which implements extract/expand on
top of HMAC-SHA256. -/

/-- HMAC-SHA256 (RFC 2104), modelled from the spec. -/
def hmac (key msg : List Nat) : List Nat :=
  let k0 := if 64 < key.length then sha256 key else key
  let k0 := k0 ++ List.replicate (64 - k0.length) 0
  sha256 ((k0.map (· ^^^ 0x5c)) ++ sha256 ((k0.map (· ^^^ 0x36)) ++ msg))

namespace Hkdf

/-- `Hkdf::new` (src/crypto/hkdf.rs): HKDF-Extract; a missing salt defaults
to 32 zero bytes. -/
def new (salt : Option (List Nat)) (ikm : List Nat) : List Nat :=
  hmac (salt.getD (List.replicate 32 0)) ikm

/-- One `expand` iteration chain: produces `n` blocks `T(1) … T(n)`. -/
def expandBlocks (prk info : List Nat) : Nat → List Nat → Nat → List Nat
  | 0, _, _ => []
  | n + 1, t, counter =>
      let t' := hmac prk (t ++ info ++ [counter % 256])
      t' ++ expandBlocks prk info n t' (counter + 1)

/-- `Hkdf::expand` (src/crypto/hkdf.rs): iterative expand to `length` bytes. -/
def expand (prk info : List Nat) (length : Nat) : List Nat :=
  (expandBlocks prk info ((length + 31) / 32) [] 1).take length

/-- `Hkdf::derive` (src/crypto/hkdf.rs): extract then expand. -/
def derive (salt : Option (List Nat)) (ikm info : List Nat) (length : Nat) : List Nat :=
  expand (new salt ikm) info length

end Hkdf

/-! ## X25519 and `KeyPair` (src/crypto/keypair.rs)

The curve arithmetic lives in the external `x25519_dalek` crate.
Modelled from the spec: "standard X25519 scalar multiplication" whose
load-bearing property is that scalar multiplication acts on an abelian
group, so `dh(a.private, b.public) == dh(b.private, a.public)`.  We model
a curve point as a residue modulo `p = 2^255 - 19` and scalar
multiplication of scalar `k` on point `u` as `clamp(k) * u (mod p)`;
keys travel as 32 little-endian bytes exactly as in the crate's API. -/

def P25519 : Nat := 2 ^ 255 - 19

/-- Curve25519 scalar clamping, as performed byte-wise in
`KeyPair::generate` (`private[0] &= 248; private[31] &= 127;
private[31] |= 64`): clear bits 0-2 and bit 255, set bit 254. -/
def clamp (k : Nat) : Nat := (k &&& ((2 ^ 252 - 1) * 2 ^ 3)) ||| 2 ^ 254

/-- The X25519 function of `x25519_dalek` (modelled from the spec):
scalar multiplication of the clamped scalar on a point. -/
def x25519 (k u : Nat) : Nat := (clamp k * u) % P25519

/-- The X25519 base point (u-coordinate 9). -/
def X25519_BASEPOINT : Nat := 9

structure KeyPair where
  public : List Nat
  priv : List Nat
  deriving DecidableEq

namespace KeyPair

/-- `KeyPair::from_private_key`: derive the public point from a stored
32-byte private key. -/
def from_private_key (priv : List Nat) : KeyPair :=
  { public := natToLE 32 (x25519 (leToNat priv) X25519_BASEPOINT), priv := priv }

/-- `KeyPair::generate`: draw 32 random bytes (the `rand` argument models
the RNG output), clamp, derive the public key. -/
def generate (rand : Nat) : KeyPair :=
  from_private_key (natToLE 32 (clamp (rand % 2 ^ 256)))

/-- `KeyPair::dh`: X25519 Diffie-Hellman with a peer public key. -/
def dh (kp : KeyPair) (theirPublic : List Nat) : List Nat :=
  natToLE 32 (x25519 (leToNat kp.priv) (leToNat theirPublic))

end KeyPair

/-! ## Token dictionary (src/binary/token.rs) -/

/-- `SINGLE_BYTE_TOKENS` (src/binary/token.rs): 236 single-byte dictionary entries. -/
def SINGLE_BYTE_TOKENS : List String :=
  ["", "xmlstreamstart", "xmlstreamend", "s.whatsapp.net", "type", "participant", "from", 
   "receipt", "id", "notification", "disappearing_mode", "status", "jid", "broadcast", "user", 
   "devices", "device_hash", "to", "offline", "message", "result", "class", "xmlns", "duration", 
   "notify", "iq", "t", "ack", "g.us", "enc", "urn:xmpp:whatsapp:push", "presence", 
   "config_value", "picture", "verified_name", "config_code", "key-index-list", "contact", 
   "mediatype", "routing_info", "edge_routing", "get", "read", "urn:xmpp:ping", 
   "fallback_hostname", "0", "chatstate", "business_hours_config", "unavailable", 
   "download_buckets", "skmsg", "verified_level", "composing", "handshake", "device-list", 
   "media", "text", "fallback_ip4", "media_conn", "device", "creation", "location", "config", 
   "item", "fallback_ip6", "count", "w:profile:picture", "image", "business", "2", "hostname", 
   "call-creator", "display_name", "relaylatency", "platform", "abprops", "success", "msg", 
   "offline_preview", "prop", "key-index", "v", "day_of_week", "pkmsg", "version", "1", "ping", 
   "w:p", "download", "video", "set", "specific_hours", "props", "primary", "unknown", "hash", 
   "commerce_experience", "last", "subscribe", "max_buckets", "call", "profile", 
   "member_since_text", "close_time", "call-id", "sticker", "mode", "participants", "value", 
   "query", "profile_options", "open_time", "code", "list", "host", "ts", "contacts", "upload", 
   "lid", "preview", "update", "usync", "w:stats", "delivery", "auth_ttl", "context", "fail", 
   "cart_enabled", "appdata", "category", "atn", "direct_connection", "decrypt-fail", 
   "relay_id", "mmg-fallback.whatsapp.net", "target", "available", "name", "last_id", 
   "mmg.whatsapp.net", "categories", "401", "is_new", "index", "tctoken", "ip4", "token_id", 
   "latency", "recipient", "edit", "ip6", "add", "thumbnail-document", "26", "paused", "true", 
   "identity", "stream:error", "key", "sidelist", "background", "audio", "3", "thumbnail-image", 
   "biz-cover-photo", "cat", "gcm", "thumbnail-video", "error", "auth", "deny", "serial", "in", 
   "registration", "thumbnail-link", "remove", "00", "gif", "thumbnail-gif", "tag", 
   "capability", "multicast", "item-not-found", "description", "business_hours", 
   "config_expo_key", "md-app-state", "expiration", "fallback", "ttl", "300", "md-msg-hist", 
   "device_orientation", "out", "w:m", "open_24h", "side_list", "token", "inactive", "01", 
   "document", "te2", "played", "encrypt", "msgr", "hide", "direct_path", "12", "state", 
   "not-authorized", "url", "terminate", "signature", "status-revoke-delay", "02", "te", 
   "linked_accounts", "trusted_contact", "timezone", "ptt", "kyc-id", "privacy_token", 
   "readreceipts", "appointment_only", "address", "expected_ts", "privacy", "7", "android", 
   "interactive", "device-identity", "enabled", "attribute_padding", "1080", "03", 
   "screen_height"]

/-- `DOUBLE_BYTE_TOKENS` (src/binary/token.rs): four secondary dictionaries. -/
def DOUBLE_BYTE_TOKENS : List (List String) :=
  [["read-self", "active", "fbns", "protocol", "reaction", "screen_width", "heartbeat", 
    "deviceid", "2:47DEQpj8", "uploadfieldstat", "voip_settings", "retry", "priority", 
    "longitude", "conflict", "false", "ig_professional", "replaced", "preaccept", "cover_photo", 
    "uncompressed", "encopt", "ppic", "04", "passive", "status-revoke-drop", "keygen", "540", 
    "offer", "rate", "opus", "latitude", "w:gp2", "ver", "4", "business_profile", "medium", 
    "sender", "prev_v_id", "email", "website", "invited", "sign_credential", "05", "transport", 
    "skey", "reason", "peer_abtest_bucket", "America/Sao_Paulo", "appid", "refresh", "100", 
    "06", "404", "101", "104", "107", "102", "109", "103", "member_add_mode", "105", 
    "transaction-id", "110", "106", "outgoing", "108", "111", "tokens", "followers", 
    "ig_handle", "self_pid", "tue", "dec", "thu", "joinable", "peer_pid", "mon", "features", 
    "wed", "peer_device_presence", "pn", "delete", "07", "fri", "audio_duration", "admin", 
    "connected", "delta", "rcat", "disable", "collection", "08", "480", "sat", "phash", "all", 
    "invite", "accept", "critical_unblock_low", "group_update", "signed_credential", 
    "blinded_credential", "eph_setting", "net", "09", "background_location", "refresh_id", 
    "Asia/Kolkata", "privacy_mode_ts", "account_sync", "voip_payload_type", "service_areas", 
    "acs_public_key", "v_id", "0a", "fallback_class", "relay", "actual_actors", "metadata", 
    "w:biz", "5", "connected-limit", "notice", "0b", "host_storage", "fb_page", "subject", 
    "privatestats", "invis", "groupadd", "010", "note.m4r", "uuid", "0c", "8000", "sun", "372", 
    "1020", "stage", "1200", "720", "canonical", "fb", "011", "video_duration", "0d", "1140", 
    "superadmin", "012", "Opening.m4r", "keystore_attestation", "dleq_proof", "013", 
    "timestamp", "ab_key", "w:sync:app:state", "0e", "vertical", "600", "p_v_id", "6", "likes", 
    "014", "500", "1260", "creator", "0f", "rte", "destination", "group", "group_info", 
    "syncd_anti_tampering_fatal_exception_enabled", "015", "dl_bw", "Asia/Jakarta", "vp8/h.264", 
    "online", "1320", "fb:multiway", "10", "timeout", "016", "nse_retry", 
    "urn:xmpp:whatsapp:dirty", "017", "a_v_id", "web_shops_chat_header_button_enabled", 
    "nse_call", "inactive-upgrade", "none", "web", "groups", "2250", 
    "mms_hot_content_timespan_in_seconds", "contact_blacklist", "nse_read", 
    "suspended_group_deletion_notification", "binary_version", "018", 
    "https://www.whatsapp.com/otp/copy/", "reg_push", 
    "shops_hide_catalog_attachment_entrypoint", "server_sync", ".", 
    "ephemeral_messages_allowed_values", "019", "mms_vcache_aggregation_enabled", "iphone", 
    "America/Argentina/Buenos_Aires", "01a", "mms_vcard_autodownload_size_kb", "nse_ver", 
    "shops_header_dropdown_menu_item", "dhash", "catalog_status", 
    "communities_mvp_new_iqs_serverprop", "blocklist", "default", "11", 
    "ephemeral_messages_enabled", "01b", "original_dimensions", "8", 
    "mms4_media_retry_notification_encryption_enabled", 
    "mms4_server_error_receipt_encryption_enabled", "original_image_url", "sync", "multiway", 
    "420", "companion_enc_static", "shops_profile_drawer_entrypoint", "01c", 
    "vcard_as_document_size_kb", "status_video_max_duration", "request_image_url", "01d", 
    "regular_high", "s_t", "abt", "share_ext_min_preliminary_image_quality", "01e", "32", 
    "syncd_key_rotation_enabled", "data_namespace", "md_downgrade_read_receipts2", "patch", 
    "polltype", "ephemeral_messages_setting", "userrate", "15", "partial_pjpeg_bw_threshold", 
    "played-self", "catalog_exists", "01f", "mute_v2"],
   ["reject", "dirty", "announcement", "020", "13", "9", "status_video_max_bitrate", 
    "fb:thrift_iq", "offline_batch", "022", "full", "ctwa_first_business_reply_logging", 
    "h.264", "smax_id", "group_description_length", "https://www.whatsapp.com/otp/code", 
    "status_image_max_edge", "smb_upsell_business_profile_enabled", "021", 
    "web_upgrade_to_md_modal", "14", "023", "s_o", "smaller_video_thumbs_status_enabled", 
    "media_max_autodownload", "960", "blocking_status", "peer_msg", 
    "joinable_group_call_client_version", "group_call_video_maximization_enabled", 
    "return_snapshot", "high", "America/Mexico_City", "entry_point_block_logging_enabled", 
    "pop", "024", "1050", "16", "1380", "one_tap_calling_in_group_chat_size", "regular_low", 
    "inline_joinable_education_enabled", "hq_image_max_edge", "locked", "America/Bogota", 
    "smb_biztools_deeplink_enabled", "status_image_quality", "1088", "025", 
    "payments_upi_intent_transaction_limit", "voip", "w:g2", "027", "md_pin_chat_enabled", 
    "026", "multi_scan_pjpeg_download_enabled", "shops_product_grid", "transaction_id"],
   ["ctwa_context_enabled", "20", "fna", "hq_image_quality", "alt_jpeg_doc_detection_quality", 
    "group_call_max_participants", "pkey", "America/Belem", "image_max_kbytes", 
    "web_cart_v1_1_order_message_changes_enabled", "ctwa_context_enterprise_enabled", 
    "urn:xmpp:whatsapp:account", "840", "Asia/Kuala_Lumpur", "max_participants", 
    "video_remux_after_repair_enabled", "stella_addressbook_restriction_type", "660", "900", 
    "780", "context_menu_ios13_enabled", "mute-state", "ref", "payments_request_messages", 
    "029", "frskmsg", "vcard_max_size_kb", "sample_buffer_gif_player_enabled", 
    "match_last_seen", "510", "4983", "video_max_bitrate", "028", "w:comms:chat", "17", 
    "frequently_forwarded_max", "groups_privacy_blacklist", "Asia/Karachi", "02a", 
    "web_download_document_thumb_mms_enabled", "02b", "hist_sync", "biz_block_reasons_version", 
    "1024", "18", "web_is_direct_connection_for_plm_transparent", "view_once_write", 
    "file_max_size", "paid_convo_id", "online_privacy_setting", "video_max_edge", 
    "view_once_read", "enhanced_storage_management", "multi_scan_pjpeg_encoding_enabled", 
    "ctwa_context_forward_enabled", "video_transcode_downgrade_enable", 
    "template_doc_mime_types", "hq_image_bw_threshold", "30", "body"],
   ["stream:features", "regular", "1724", "profile_picture"]]

/-- `get_token_index` (src/binary/token.rs): reverse lookup.  The source
builds a `HashMap` once by inserting every non-empty token in index
order, so a duplicate string would be mapped to its **last** index; the
lookup is modelled as a search of the reversed enumerated table. -/
def get_token_index (s : String) : Option Nat :=
  (((SINGLE_BYTE_TOKENS.enum.filter (fun p => p.2 != "")).reverse).find?
    (fun p => p.2 == s)).map (fun p => p.1)

/-- `get_token` (src/binary/token.rs): forward lookup by index. -/
def get_token (index : Nat) : Option String :=
  SINGLE_BYTE_TOKENS.get? index

/-- `get_double_token` (src/binary/token.rs). -/
def get_double_token (dict index : Nat) : Option String :=
  match DOUBLE_BYTE_TOKENS.get? dict with
  | none => none
  | some tokens => tokens.get? index

/-! ## UTF-8 byte codec

`String::as_bytes` / `String::from_utf8` from the Rust standard library,
modelled by the standard UTF-8 encoding of the characters' scalar values
(RFC 3629: 1-4 bytes per scalar, continuation bytes `0x80..0xBF`,
overlong forms and surrogates rejected). -/

/-- UTF-8 bytes of one Unicode scalar value. -/
def utf8Char (c : Nat) : List Nat :=
  if c < 0x80 then [c]
  else if c < 0x800 then [0xC0 ||| (c >>> 6), 0x80 ||| (c &&& 0x3F)]
  else if c < 0x10000 then
    [0xE0 ||| (c >>> 12), 0x80 ||| ((c >>> 6) &&& 0x3F), 0x80 ||| (c &&& 0x3F)]
  else
    [0xF0 ||| (c >>> 18), 0x80 ||| ((c >>> 12) &&& 0x3F),
     0x80 ||| ((c >>> 6) &&& 0x3F), 0x80 ||| (c &&& 0x3F)]

/-- `str::as_bytes`: the UTF-8 byte sequence of a string. -/
def strBytes (s : String) : List Nat :=
  s.toList.flatMap (fun ch => utf8Char ch.toNat)

/-- Is `b` a UTF-8 continuation byte? -/
def isCont (b : Nat) : Bool := 0x80 ≤ b && b < 0xC0

/-- Decode UTF-8 bytes to scalar values, rejecting malformed input
(overlong encodings, surrogates, out-of-range scalars). -/
def utf8Decode : List Nat → Option (List Nat)
  | [] => some []
  | b :: rest =>
    if b < 0x80 then (utf8Decode rest).map (b :: ·)
    else if b < 0xC2 then none
    else if b < 0xE0 then
      match rest with
      | b1 :: rest' =>
        if isCont b1 then (utf8Decode rest').map (((b - 0xC0) * 64 + (b1 - 0x80)) :: ·)
        else none
      | _ => none
    else if b < 0xF0 then
      match rest with
      | b1 :: b2 :: rest' =>
        let c := (b - 0xE0) * 4096 + (b1 - 0x80) * 64 + (b2 - 0x80)
        if isCont b1 && isCont b2 && 0x800 ≤ c && !(0xD800 ≤ c && c < 0xE000) then
          (utf8Decode rest').map (c :: ·)
        else none
      | _ => none
    else if b < 0xF5 then
      match rest with
      | b1 :: b2 :: b3 :: rest' =>
        let c := (b - 0xF0) * 262144 + (b1 - 0x80) * 4096 + (b2 - 0x80) * 64 + (b3 - 0x80)
        if isCont b1 && isCont b2 && isCont b3 && 0x10000 ≤ c && c < 0x110000 then
          (utf8Decode rest').map (c :: ·)
        else none
      | _ => none
    else none

/-- `String::from_utf8`: reconstruct a string, or fail on invalid UTF-8. -/
def stringFromUtf8 (bytes : List Nat) : Option String :=
  (utf8Decode bytes).map (fun cs => ⟨cs.map Char.ofNat⟩)

/-! ## `JID` (src/types/jid.rs) -/

structure JID where
  user : String
  raw_agent : Nat
  device : Nat
  integrator : Nat
  server : String
  deriving DecidableEq

namespace JID

/-- `servers::DEFAULT_USER`. -/
def DEFAULT_USER : String := "s.whatsapp.net"

/-- `JID::new`: a regular JID; other fields default to zero. -/
def new (user server : String) : JID :=
  { user := user, raw_agent := 0, device := 0, integrator := 0, server := server }

/-- `JID::new_ad` (src/types/jid.rs): agent values 1 / 128 / 129 select the
lid / hosted / hosted.lid servers with `raw_agent` zeroed; any other agent
keeps `raw_agent` and the default server. -/
def new_ad (user : String) (agent device : Nat) : JID :=
  let sr : String × Nat :=
    if agent = 1 then ("lid", 0)
    else if agent = 128 then ("hosted", 0)
    else if agent = 129 then ("hosted.lid", 0)
    else (DEFAULT_USER, agent)
  { user := user, raw_agent := sr.2, device := device, integrator := 0, server := sr.1 }

end JID

/-! ## `Node` and `AttrValue` (src/binary/node.rs)

The source stores attributes in a `HashMap<String, AttrValue>`; the
embedding uses an association list, whose order stands for the map's
iteration order. -/

mutual

inductive AttrValue where
  | none : AttrValue
  | string : String → AttrValue
  | bytes : List Nat → AttrValue
  | int : Int → AttrValue
  | bool : Bool → AttrValue
  | jid : JID → AttrValue

inductive NodeContent where
  | none : NodeContent
  | children : List Node → NodeContent
  | bytes : List Nat → NodeContent

inductive Node where
  | mk : String → List (String × AttrValue) → NodeContent → Node

end

def Node.tag : Node → String
  | .mk t _ _ => t

def Node.attrs : Node → List (String × AttrValue)
  | .mk _ a _ => a

def Node.content : Node → NodeContent
  | .mk _ _ c => c

/-! ## Encoder (src/binary/encoder.rs)

The imperative encoder appends to a byte vector; each `write_*` method is
embedded as the byte list it appends. -/

namespace Encoder

/-- `Encoder::write_int`: 1, 2 or 3 bytes by size class. -/
def write_int (n : Nat) : List Nat :=
  if n < 256 then [n]
  else if n < 65536 then [(n >>> 8) &&& 0xFF, n &&& 0xFF]
  else [(n >>> 16) &&& 0xFF, (n >>> 8) &&& 0xFF, n &&& 0xFF]

/-- `Encoder::write_string`: empty marker, dictionary token, or a
length-prefixed raw string of one of three size classes. -/
def write_string (s : String) : List Nat :=
  if s = "" then [0xFC]
  else
    match get_token_index s with
    | some token => [token]
    | none =>
      let bytes := strBytes s
      if bytes.length < 256 then
        0xFC :: (bytes.length % 256) :: bytes
      else if bytes.length < 65536 then
        0xFD :: ((bytes.length >>> 8) &&& 0xFF) :: (bytes.length &&& 0xFF) :: bytes
      else
        0xFE :: ((bytes.length >>> 16) &&& 0xFF) :: ((bytes.length >>> 8) &&& 0xFF) ::
          (bytes.length &&& 0xFF) :: bytes

/-- `Encoder::write_jid`: AD form when agent or device is non-zero
(`jid.device as u8` truncates), plain form otherwise. -/
def write_jid (jid : JID) : List Nat :=
  if 0 < jid.raw_agent ∨ 0 < jid.device then
    [0xFA, jid.raw_agent, jid.device % 256] ++ write_string jid.user
  else
    [0xF9] ++ write_string jid.user ++ write_string jid.server

/-- `Encoder::write_attr_value`. -/
def write_attr_value : AttrValue → List Nat
  | .none => [0x00]
  | .string s => write_string s
  | .bytes b => [0xFF] ++ write_int b.length ++ b
  | .int n => write_string (toString n)
  | .bool b => write_string (if b then "true" else "false")
  | .jid jid => write_jid jid

/-- `Node` header byte: `((num_attrs << 1) | has_content) as u8`. -/
def headerByte (attrsLen : Nat) (hasContent : Bool) : Nat :=
  ((attrsLen <<< 1) ||| (if hasContent then 1 else 0)) % 256

mutual

/-- `Encoder::write_node`: header byte, tag string, attribute pairs,
then content. -/
def write_node : Node → List Nat
  | .mk tag attrs content =>
      headerByte attrs.length (match content with | .none => false | _ => true) ::
      (write_string tag ++
       attrs.flatMap (fun kv => write_string kv.1 ++ write_attr_value kv.2) ++
       write_content content)

/-- Content part of `Encoder::write_node`. -/
def write_content : NodeContent → List Nat
  | .none => []
  | .children cs => [0xF8] ++ write_int cs.length ++ write_nodes cs
  | .bytes bytes => [0xFF] ++ write_int bytes.length ++ bytes

def write_nodes : List Node → List Nat
  | [] => []
  | n :: rest => write_node n ++ write_nodes rest

end

end Encoder

/-- `encode` (src/binary/encoder.rs): encode a node to its binary form. -/
def encode (node : Node) : List Nat := Encoder.write_node node

/-! ## Decoder (src/binary/decoder.rs)

The decoder owns a byte slice and a cursor; every read checks the
remaining length first.  `read_node` recurses into children; the `fuel`
argument (absent from the source, whose recursion is bounded by the
input) only serves to make the recursion structural, and its exhaustion
is reported as a distinguished error that is unreachable when the fuel
exceeds the input length. -/

/-- `DecodeError` (src/binary/decoder.rs): a descriptive message. -/
structure DecodeError where
  msg : String
  deriving DecidableEq

/-- Decoder state: the input slice and the cursor. -/
structure DecState where
  data : List Nat
  index : Nat
  deriving DecidableEq

/-- A read either fails or produces a value and the advanced state. -/
abbrev DecRes (α : Type) := Except DecodeError (α × DecState)

instance {ε α : Type} [DecidableEq ε] [DecidableEq α] : DecidableEq (Except ε α) := fun a b =>
  match a, b with
  | .error e, .error e' =>
      if h : e = e' then .isTrue (by rw [h]) else .isFalse (fun hh => by cases hh; exact h rfl)
  | .ok x, .ok y =>
      if h : x = y then .isTrue (by rw [h]) else .isFalse (fun hh => by cases hh; exact h rfl)
  | .error _, .ok _ => .isFalse (fun hh => by cases hh)
  | .ok _, .error _ => .isFalse (fun hh => by cases hh)

namespace Decoder

/-- The `?` operator of the source: propagate an error, or continue with
the produced value and advanced state. -/
def dbind {α β : Type} (x : DecRes α) (f : α → DecState → DecRes β) : DecRes β :=
  match x with
  | .error e => .error e
  | .ok (a, st) => f a st

/-- Lift a stateless fallible computation into the decoder. -/
def dlift {α : Type} (x : Except DecodeError α) (st : DecState) : DecRes α :=
  match x with
  | .error e => .error e
  | .ok a => .ok (a, st)

/-- `Decoder::read_byte`: bounds check, then one byte. -/
def read_byte (st : DecState) : DecRes Nat :=
  if st.data.length ≤ st.index then .error ⟨"unexpected end of data"⟩
  else .ok (st.data.getD st.index 0, ⟨st.data, st.index + 1⟩)

/-- `Decoder::read_bytes`: bounds check, then `n` bytes. -/
def read_bytes (n : Nat) (st : DecState) : DecRes (List Nat) :=
  if st.data.length < st.index + n then .error ⟨"unexpected end of data"⟩
  else .ok ((st.data.drop st.index).take n, ⟨st.data, st.index + n⟩)

/-- Loop body of `Decoder::read_int`. -/
def read_int_aux : Nat → Nat → DecState → DecRes Nat
  | 0, acc, st => .ok (acc, st)
  | count + 1, acc, st =>
    dbind (read_byte st) (fun b => read_int_aux count ((acc <<< 8) ||| b))

/-- `Decoder::read_int`: big-endian accumulation of `bytes` bytes. -/
def read_int (bytes : Nat) (st : DecState) : DecRes Nat :=
  read_int_aux bytes 0 st

/-- `String::from_utf8` lifted into the decoder's error type. -/
def utf8OrErr (bytes : List Nat) : Except DecodeError String :=
  match stringFromUtf8 bytes with
  | some s => .ok s
  | none => .error ⟨"invalid utf8"⟩

/-- `Decoder::read_string`: the `tag` byte (already consumed) selects the
empty string, a raw string of one of three size classes, a double-byte
dictionary token, or a single-byte token. -/
def read_string (tag : Nat) (st : DecState) : DecRes String :=
  if tag = 0x00 then .ok ("", st)
  else if tag = 0xFC then
    dbind (read_byte st) (fun len st' =>
      if len = 0 then .ok ("", st')
      else
        dbind (read_bytes len st') (fun bytes st'' =>
          dlift (utf8OrErr bytes) st''))
  else if tag = 0xFD then
    dbind (read_int 2 st) (fun len st' =>
      dbind (read_bytes len st') (fun bytes st'' =>
        dlift (utf8OrErr bytes) st''))
  else if tag = 0xFE then
    dbind (read_int 3 st) (fun len st' =>
      dbind (read_bytes len st') (fun bytes st'' =>
        dlift (utf8OrErr bytes) st''))
  else if 0xEC ≤ tag ∧ tag ≤ 0xEF then
    dbind (read_byte st) (fun index st' =>
      match get_double_token (tag - 0xEC) index with
      | some token => .ok (token, st')
      | none => .error ⟨"unknown double token"⟩)
  else
    match get_token tag with
    | some token => .ok (token, st)
    | none => .error ⟨"unknown token"⟩

/-- `Decoder::read_jid`: regular (0xF9) or AD (0xFA) form. -/
def read_jid (marker : Nat) (st : DecState) : DecRes JID :=
  if marker = 0xF9 then
    dbind (read_byte st) (fun user_tag st' =>
      dbind (read_string user_tag st') (fun user st'' =>
        dbind (read_byte st'') (fun server_tag st3 =>
          dbind (read_string server_tag st3) (fun server st4 =>
            .ok (JID.new user server, st4)))))
  else if marker = 0xFA then
    dbind (read_byte st) (fun agent st' =>
      dbind (read_byte st') (fun device st'' =>
        dbind (read_byte st'') (fun user_tag st3 =>
          dbind (read_string user_tag st3) (fun user st4 =>
            .ok (JID.new_ad user agent device, st4)))))
  else .error ⟨"invalid JID marker"⟩

/-- `Decoder::read_attr_value`: dispatch on the value's tag byte. -/
def read_attr_value (st : DecState) : DecRes AttrValue :=
  dbind (read_byte st) (fun tag st' =>
    if tag = 0x00 then .ok (.none, st')
    else if tag = 0xF9 ∨ tag = 0xFA then
      dbind (read_jid tag st') (fun jid st'' => .ok (.jid jid, st''))
    else if tag = 0xFF then
      dbind (read_byte st') (fun len_tag st'' =>
        dbind (if len_tag < 0xFC then .ok (len_tag, st'')
          else if len_tag = 0xFC then read_byte st''
          else if len_tag = 0xFD then read_int 2 st''
          else if len_tag = 0xFE then read_int 3 st''
          else .error ⟨"invalid length marker"⟩) (fun len st3 =>
          dbind (read_bytes len st3) (fun bytes st4 => .ok (.bytes bytes, st4))))
    else
      dbind (read_string tag st') (fun s st'' => .ok (.string s, st'')))

/-- `Decoder::read_list_size`. -/
def read_list_size (token : Nat) (st : DecState) : DecRes Nat :=
  if token = 0x00 then .ok (0, st)
  else if token = 0xF8 then read_byte st
  else if token = 0xF9 then read_int 2 st
  else .error ⟨"expected list token"⟩

/-- Attribute-pair loop of `Decoder::read_node`. -/
def read_attr_pairs : Nat → DecState → DecRes (List (String × AttrValue))
  | 0, st => .ok ([], st)
  | count + 1, st =>
    dbind (read_byte st) (fun key_marker st' =>
      dbind (read_string key_marker st') (fun key st'' =>
        dbind (read_attr_value st'') (fun value st3 =>
          dbind (read_attr_pairs count st3) (fun rest st4 =>
            .ok ((key, value) :: rest, st4)))))

/-- Run a parser `count` times, collecting results (the child loop of
`Decoder::read_node`). -/
def read_many {α : Type} (p : DecState → DecRes α) : Nat → DecState → DecRes (List α)
  | 0, st => .ok ([], st)
  | count + 1, st =>
    dbind (p st) (fun a st' =>
      dbind (read_many p count st') (fun rest st'' =>
        .ok (a :: rest, st'')))

/-- `Decoder::read_node`: a node is a list whose size determines the
attribute-pair count and the content flag. -/
def read_node : Nat → DecState → DecRes Node
  | 0, _ => .error ⟨"recursion fuel exhausted"⟩
  | fuel + 1, st =>
    dbind (read_byte st) (fun token st1 =>
      dbind (read_list_size token st1) (fun size st2 =>
        if size = 0 then .error ⟨"invalid empty list for node"⟩
        else
          dbind (read_byte st2) (fun tag_marker st3 =>
            dbind (read_string tag_marker st3) (fun tag st4 =>
              dbind (read_attr_pairs ((size - 1) / 2) st4) (fun attrs st5 =>
                if (size - 1) % 2 = 1 then
                  dbind (read_byte st5) (fun content_marker st6 =>
                    if content_marker = 0xF8 ∨ content_marker = 0xF9 then
                      dbind (read_list_size content_marker st6) (fun len st7 =>
                        dbind (read_many (fun s => read_node fuel s) len st7)
                          (fun children st8 =>
                            .ok (.mk tag attrs (.children children), st8)))
                    else if content_marker = 0xFF ∨ content_marker = 0xFC ∨
                        content_marker = 0xFD ∨ content_marker = 0xFE then
                      dbind (if content_marker = 0xFC then read_byte st6
                        else if content_marker = 0xFD then read_int 2 st6
                        else if content_marker = 0xFE then read_int 3 st6
                        else .error ⟨"invalid bytes length"⟩) (fun len st7 =>
                        dbind (read_bytes len st7) (fun bytes st8 =>
                          .ok (.mk tag attrs (.bytes bytes), st8)))
                    else
                      dbind (read_string content_marker st6) (fun s st7 =>
                        .ok (.mk tag attrs (.bytes (strBytes s)), st7)))
                else
                  .ok (.mk tag attrs .none, st5))))))

/-- `Decoder::decode`: parse one node and reject leftover bytes.  The
fuel `data.length + 1` dominates the recursion depth, which the source
bounds by the input length. -/
def decode (data : List Nat) : Except DecodeError Node :=
  match read_node (data.length + 1) ⟨data, 0⟩ with
  | .error e => .error e
  | .ok (node, st) =>
    if st.index ≠ st.data.length then .error ⟨"leftover bytes after decoding"⟩
    else .ok node

end Decoder

/-! ## AEAD (AES-256-GCM, external `aes_gcm` crate)

Modelled from the spec: `aead_encrypt` returns ciphertext‖tag (16-byte
tag, so ciphertext length = plaintext length + 16) and `aead_decrypt`
recovers the plaintext exactly when key, nonce, associated data and
ciphertext‖tag all match, failing otherwise.  The embedding is
parameterized over the AEAD so that theorems can quantify over any
implementation of this interface; `specAead` is a concrete instance
whose tag is a hash of (key, nonce, ad, plaintext). -/

structure AeadModel where
  enc : List Nat → List Nat → List Nat → List Nat → List Nat
  dec : List Nat → List Nat → List Nat → List Nat → Option (List Nat)

/-- 16-byte authentication tag of the concrete AEAD instance. -/
def tag16 (key nonce ad pt : List Nat) : List Nat :=
  (sha256 (key ++ nonce ++ ad ++ pt)).take 16

/-- Concrete AEAD instance: ciphertext = plaintext ‖ tag; decryption
verifies the tag. -/
def specAead : AeadModel where
  enc := fun key nonce ad pt => pt ++ tag16 key nonce ad pt
  dec := fun key nonce ad ct =>
    if ct.length < 16 then none
    else
      let pt := ct.take (ct.length - 16)
      if ct.drop (ct.length - 16) = tag16 key nonce ad pt then some pt else none

/-- An AEAD whose decryption always fails: the behavior of AES-256-GCM
on a corrupted or tampered frame. -/
def failAead : AeadModel where
  enc := fun key nonce ad pt => pt ++ tag16 key nonce ad pt
  dec := fun _ _ _ _ => none

/-! ## `Cipher` (src/crypto/cipher.rs) -/

/-- `CipherError` (src/crypto/cipher.rs). -/
inductive CipherError where
  | invalidKey
  | encryptionFailed
  | decryptionFailed
  deriving DecidableEq

structure Cipher where
  key : List Nat
  nonce_counter : Nat
  deriving DecidableEq

namespace Cipher

/-- `Cipher::new`: store the key, counter starts at 0. -/
def new (key : List Nat) : Cipher := { key := key, nonce_counter := 0 }

/-- The 12-byte nonce built by `Cipher::next_nonce` for a counter value:
4 zero bytes, then the counter as 8 big-endian bytes. -/
def nonceBytes (counter : Nat) : List Nat := [0, 0, 0, 0] ++ be64 counter

/-- `Cipher::next_nonce`: the nonce for the current counter, and the
state with the counter incremented (u64 arithmetic). -/
def next_nonce (c : Cipher) : List Nat × Cipher :=
  (nonceBytes (c.nonce_counter % 2 ^ 64),
   { c with nonce_counter := (c.nonce_counter + 1) % 2 ^ 64 })

/-- `Cipher::encrypt`: encrypt under the next counter nonce. -/
def encrypt (aead : AeadModel) (c : Cipher) (plaintext ad : List Nat) :
    List Nat × Cipher :=
  let (nonce, c') := next_nonce c
  (aead.enc c.key nonce ad plaintext, c')

/-- `Cipher::decrypt`: decrypt under the next counter nonce; the counter
advances even if authentication fails. -/
def decrypt (aead : AeadModel) (c : Cipher) (ciphertext ad : List Nat) :
    Except CipherError (List Nat) × Cipher :=
  let (nonce, c') := next_nonce c
  match aead.dec c.key nonce ad ciphertext with
  | some pt => (.ok pt, c')
  | none => (.error .decryptionFailed, c')

end Cipher

/-! ## `NoiseHandshake` (src/crypto/noise.rs) -/

/-- `NOISE_PROTOCOL_NAME`: 28 ASCII characters plus 4 NUL bytes. -/
def NOISE_PROTOCOL_NAME : List Nat :=
  strBytes "Noise_XX_25519_AESGCM_SHA256" ++ [0, 0, 0, 0]

/-- `HandshakeError` (src/crypto/noise.rs), plus a `slicePanic` variant
modelling the Rust panic when `read_message_2` slices a message shorter
than 80 bytes (`message[32..80]`). -/
inductive HandshakeError where
  | messageTooShort
  | decryptionFailed
  | encryptionFailed
  | invalidKeySize
  | missingRemoteKey
  | slicePanic
  deriving DecidableEq

structure NoiseHandshake where
  local_static : KeyPair
  local_ephemeral : Option KeyPair
  remote_static : Option (List Nat)
  remote_ephemeral : Option (List Nat)
  chaining_key : List Nat
  hash : List Nat
  cipher : Option Cipher
  /-- Ghost field, absent from the source: the 12-byte nonces consumed by
  the AEAD operations of this handshake, in order.  It never influences
  any other field. -/
  nonce_log : List (List Nat)
  deriving DecidableEq

namespace NoiseHandshake

/-- `NoiseHandshake::initialize` (`initialize` is a Lean keyword, hence
`initState`): hash := SHA-256(protocol name), chaining key := hash,
fresh ephemeral key pair (from RNG output `rand`). -/
def initState (hs : NoiseHandshake) (rand : Nat) : NoiseHandshake :=
  { hs with
    hash := sha256 NOISE_PROTOCOL_NAME,
    chaining_key := sha256 NOISE_PROTOCOL_NAME,
    local_ephemeral := some (KeyPair.generate rand) }

/-- `NoiseHandshake::new_initiator`. -/
def new_initiator (local_static : KeyPair) (rand : Nat) : NoiseHandshake :=
  initState
    { local_static := local_static, local_ephemeral := none,
      remote_static := none, remote_ephemeral := none,
      chaining_key := List.replicate 32 0, hash := List.replicate 32 0,
      cipher := none, nonce_log := [] } rand

/-- `NoiseHandshake::new_responder`: delegates to `new_initiator`. -/
def new_responder (local_static : KeyPair) (rand : Nat) : NoiseHandshake :=
  new_initiator local_static rand

/-- `NoiseHandshake::mix_hash`. -/
def mix_hash (hs : NoiseHandshake) (data : List Nat) : NoiseHandshake :=
  { hs with hash := sha256 (hs.hash ++ data) }

/-- `NoiseHandshake::mix_key`: HKDF with the chaining key as salt; first
half becomes the new chaining key, second half the new cipher key. -/
def mix_key (hs : NoiseHandshake) (input : List Nat) : List Nat × NoiseHandshake :=
  let derived := Hkdf.derive (some hs.chaining_key) input [] 64
  (derived.drop 32, { hs with chaining_key := derived.take 32 })

/-- `NoiseHandshake::encrypt_and_hash`: AEAD with the transcript hash as
associated data, then mix the ciphertext into the hash. -/
def encrypt_and_hash (aead : AeadModel) (hs : NoiseHandshake) (plaintext : List Nat) :
    Except CipherError (List Nat × NoiseHandshake) :=
  match hs.cipher with
  | none => .error .invalidKey
  | some c =>
    let nonce := (Cipher.next_nonce c).1
    let (ciphertext, c') := Cipher.encrypt aead c plaintext hs.hash
    .ok (ciphertext,
      { (mix_hash hs ciphertext) with
        cipher := some c', nonce_log := hs.nonce_log ++ [nonce] })

/-- `NoiseHandshake::decrypt_and_hash`: AEAD with the transcript hash as
associated data, then mix the ciphertext into the hash. -/
def decrypt_and_hash (aead : AeadModel) (hs : NoiseHandshake) (ciphertext : List Nat) :
    Except CipherError (List Nat × NoiseHandshake) :=
  match hs.cipher with
  | none => .error .invalidKey
  | some c =>
    let nonce := (Cipher.next_nonce c).1
    match Cipher.decrypt aead c ciphertext hs.hash with
    | (.error e, _) => .error e
    | (.ok pt, c') =>
      .ok (pt,
        { (mix_hash hs ciphertext) with
          cipher := some c', nonce_log := hs.nonce_log ++ [nonce] })

/-- Placeholder key pair standing for the `expect` panic when the local
ephemeral key is missing; `initialize` always sets it. -/
def missingKeyPair : KeyPair := { public := [], priv := [] }

/-- `NoiseHandshake::write_message_1` (-> e): mix the ephemeral public
key into the hash and output it in the clear. -/
def write_message_1 (hs : NoiseHandshake) : List Nat × NoiseHandshake :=
  let ephemeral_public := (hs.local_ephemeral.getD missingKeyPair).public
  (ephemeral_public, mix_hash hs ephemeral_public)

/-- `NoiseHandshake::read_message_2` (<- e, ee, s, es). -/
def read_message_2 (aead : AeadModel) (hs : NoiseHandshake) (message : List Nat) :
    Except HandshakeError (List Nat × NoiseHandshake) :=
  if message.length < 32 then .error .messageTooShort
  else if message.length < 80 then .error .slicePanic
  else
    let remote_e := message.take 32
    let hs := mix_hash { hs with remote_ephemeral := some remote_e } remote_e
    let ephemeral := hs.local_ephemeral.getD missingKeyPair
    let shared_ee := ephemeral.dh remote_e
    let kh := mix_key hs shared_ee
    let hs := { kh.2 with cipher := some (Cipher.new kh.1) }
    let encrypted_s := (message.drop 32).take 48
    match decrypt_and_hash aead hs encrypted_s with
    | .error _ => .error .decryptionFailed
    | .ok (remote_s, hs) =>
      if remote_s.length ≠ 32 then .error .invalidKeySize
      else
        let hs := { hs with remote_static := some remote_s }
        let shared_es := ephemeral.dh remote_s
        let kh := mix_key hs shared_es
        let hs := { kh.2 with cipher := some (Cipher.new kh.1) }
        let encrypted_payload := message.drop 80
        match decrypt_and_hash aead hs encrypted_payload with
        | .error _ => .error .decryptionFailed
        | .ok (payload, hs) => .ok (payload, hs)

/-- `NoiseHandshake::write_message_3` (-> s, se). -/
def write_message_3 (aead : AeadModel) (hs : NoiseHandshake) (payload : List Nat) :
    Except HandshakeError (List Nat × NoiseHandshake) :=
  match encrypt_and_hash aead hs hs.local_static.public with
  | .error _ => .error .encryptionFailed
  | .ok (encrypted_s, hs) =>
    match hs.remote_ephemeral with
    | none => .error .missingRemoteKey
    | some remote_e =>
      let shared_se := hs.local_static.dh remote_e
      let kh := mix_key hs shared_se
      let hs := { kh.2 with cipher := some (Cipher.new kh.1) }
      match encrypt_and_hash aead hs payload with
      | .error _ => .error .encryptionFailed
      | .ok (encrypted_payload, hs) => .ok (encrypted_s ++ encrypted_payload, hs)

/-- `NoiseHandshake::split`: one final HKDF expansion of the chaining
key; first half keys the send cipher, second half the receive cipher —
with no dependence on the handshake role. -/
def split (hs : NoiseHandshake) : Cipher × Cipher :=
  let derived := Hkdf.derive (some hs.chaining_key) [] [] 64
  (Cipher.new (derived.take 32), Cipher.new (derived.drop 32))

end NoiseHandshake

/-! ## Responder side of the XX exchange

Modelled from the spec: src/crypto/noise.rs implements only the
initiator's message processing (`write_message_1`, `read_message_2`,
`write_message_3`); the responder's three mirrored steps below follow
§4.5 of the spec ("Handshake State Machine"), reusing the repository's
`mix_hash` / `mix_key` / `encrypt_and_hash` / `decrypt_and_hash` /
`split` and the DH rules of the XX pattern (ee: ephemeral×ephemeral,
es: responder static × initiator ephemeral, se: responder ephemeral ×
initiator static). -/

namespace Responder

open NoiseHandshake

/-- Modelled from the spec: responder processing of message 1 (`-> e`):
record and mix the initiator's ephemeral public key. -/
def read_message_1 (hs : NoiseHandshake) (message : List Nat) : NoiseHandshake :=
  mix_hash { hs with remote_ephemeral := some (message.take 32) } message

/-- Modelled from the spec: responder production of message 2
(`<- e, ee, s, es`). -/
def write_message_2 (aead : AeadModel) (hs : NoiseHandshake) (payload : List Nat) :
    Except HandshakeError (List Nat × NoiseHandshake) :=
  let ephemeral := hs.local_ephemeral.getD missingKeyPair
  let hs := mix_hash hs ephemeral.public
  match hs.remote_ephemeral with
  | none => .error .missingRemoteKey
  | some remote_e =>
    let shared_ee := ephemeral.dh remote_e
    let kh := mix_key hs shared_ee
    let hs := { kh.2 with cipher := some (Cipher.new kh.1) }
    match encrypt_and_hash aead hs hs.local_static.public with
    | .error _ => .error .encryptionFailed
    | .ok (encrypted_s, hs) =>
      let shared_es := hs.local_static.dh remote_e
      let kh := mix_key hs shared_es
      let hs := { kh.2 with cipher := some (Cipher.new kh.1) }
      match encrypt_and_hash aead hs payload with
      | .error _ => .error .encryptionFailed
      | .ok (encrypted_payload, hs) =>
        .ok (ephemeral.public ++ encrypted_s ++ encrypted_payload, hs)

/-- Modelled from the spec: responder processing of message 3
(`-> s, se`). -/
def read_message_3 (aead : AeadModel) (hs : NoiseHandshake) (message : List Nat) :
    Except HandshakeError (List Nat × NoiseHandshake) :=
  match decrypt_and_hash aead hs (message.take 48) with
  | .error _ => .error .decryptionFailed
  | .ok (remote_s, hs) =>
    if remote_s.length ≠ 32 then .error .invalidKeySize
    else
      let hs := { hs with remote_static := some remote_s }
      let ephemeral := hs.local_ephemeral.getD missingKeyPair
      let shared_se := ephemeral.dh remote_s
      let kh := mix_key hs shared_se
      let hs := { kh.2 with cipher := some (Cipher.new kh.1) }
      match decrypt_and_hash aead hs (message.drop 48) with
      | .error _ => .error .decryptionFailed
      | .ok (payload, hs) => .ok (payload, hs)

end Responder

/-- A complete in-memory three-message XX exchange: the initiator runs
the repository's `write_message_1` / `read_message_2` /
`write_message_3` / `split`; the responder runs the spec-modelled
mirror steps and the repository's role-independent `split`.  Returns
both sides' split cipher pairs. -/
def fullExchange (aead : AeadModel) (staticI staticR : KeyPair) (randI randR : Nat)
    (payload2 payload3 : List Nat) :
    Except HandshakeError ((Cipher × Cipher) × (Cipher × Cipher)) :=
  let init := NoiseHandshake.new_initiator staticI randI
  let resp := NoiseHandshake.new_responder staticR randR
  let w1 := NoiseHandshake.write_message_1 init
  let init := w1.2
  let resp := Responder.read_message_1 resp w1.1
  match Responder.write_message_2 aead resp payload2 with
  | .error e => .error e
  | .ok (m2, resp) =>
    match NoiseHandshake.read_message_2 aead init m2 with
    | .error e => .error e
    | .ok (_, init) =>
      match NoiseHandshake.write_message_3 aead init payload3 with
      | .error e => .error e
      | .ok (m3, init) =>
        match Responder.read_message_3 aead resp m3 with
        | .error e => .error e
        | .ok (_, resp) => .ok (NoiseHandshake.split init, NoiseHandshake.split resp)

/-! ## Socket-side Noise state (src/socket/handshake.rs) -/

/-- `HandshakeError` (src/socket/handshake.rs). -/
inductive SocketError where
  | connectionFailed (msg : String)
  | timeout
  | invalidResponse (msg : String)
  | cryptoError (msg : String)
  | protocolError (msg : String)
  deriving DecidableEq

/-- `NOISE_PATTERN` (src/socket/handshake.rs): the same 32 bytes as
`NOISE_PROTOCOL_NAME`. -/
def NOISE_PATTERN : List Nat :=
  strBytes "Noise_XX_25519_AESGCM_SHA256" ++ [0, 0, 0, 0]

/-- `WA_HEADER`: 'W', 'A', 6, 3. -/
def WA_HEADER : List Nat := [87, 65, 6, 3]

structure SocketNoise where
  hash : List Nat
  salt : List Nat
  key : List Nat
  counter : Nat
  deriving DecidableEq

namespace SocketNoise

/-- `NoiseHandshake::authenticate` (src/socket/handshake.rs). -/
def authenticate (s : SocketNoise) (data : List Nat) : SocketNoise :=
  { s with hash := sha256 (s.hash ++ data) }

/-- The state assembled by `NoiseHandshake::new` before the prologue is
mixed in: hash, salt and key are all the 32-byte pattern itself
("Pattern is exactly 32 bytes so use directly"), counter 0. -/
def newInit : SocketNoise :=
  { hash := NOISE_PATTERN, salt := NOISE_PATTERN, key := NOISE_PATTERN, counter := 0 }

/-- `NoiseHandshake::new` (src/socket/handshake.rs): the initial state
with the connection header authenticated as prologue. -/
def new (header : List Nat) : SocketNoise :=
  authenticate newInit header

/-- `NoiseHandshake::generate_iv`: 12 bytes, the high 8 zero, the
counter big-endian in the low 4 (u32). -/
def generate_iv (s : SocketNoise) : List Nat :=
  List.replicate 8 0 ++ be32 (s.counter % 2 ^ 32)

/-- `NoiseHandshake::encrypt` (src/socket/handshake.rs): AEAD under the
current key and counter IV with the hash as associated data; increment
the counter; mix the ciphertext into the hash. -/
def encrypt (aead : AeadModel) (s : SocketNoise) (plaintext : List Nat) :
    List Nat × SocketNoise :=
  let ciphertext := aead.enc s.key s.generate_iv s.hash plaintext
  (ciphertext, authenticate { s with counter := (s.counter + 1) % 2 ^ 32 } ciphertext)

/-- `NoiseHandshake::decrypt` (src/socket/handshake.rs). -/
def decrypt (aead : AeadModel) (s : SocketNoise) (ciphertext : List Nat) :
    Except SocketError (List Nat × SocketNoise) :=
  match aead.dec s.key s.generate_iv s.hash ciphertext with
  | none => .error (.cryptoError "decryption failed")
  | some plaintext =>
    .ok (plaintext, authenticate { s with counter := (s.counter + 1) % 2 ^ 32 } ciphertext)

/-- `NoiseHandshake::mix_into_key`: reset the counter to zero, then
HKDF-derive the new salt and cipher key. -/
def mix_into_key (s : SocketNoise) (shared_secret : List Nat) : SocketNoise :=
  let s := { s with counter := 0 }
  let derived := Hkdf.derive (some s.salt) shared_secret [] 64
  { s with salt := derived.take 32, key := derived.drop 32 }

/-- `NoiseHandshake::mix_shared_secret`: X25519 then `mix_into_key`. -/
def mix_shared_secret (s : SocketNoise) (priv_key pub_key : List Nat) : SocketNoise :=
  mix_into_key s (natToLE 32 (x25519 (leToNat priv_key) (leToNat pub_key)))

/-- `NoiseHandshake::finish`: final HKDF expansion into the write and
read transport keys. -/
def finish (s : SocketNoise) : List Nat × List Nat :=
  let derived := Hkdf.derive (some s.salt) [] [] 64
  (derived.take 32, derived.drop 32)

end SocketNoise

/-! ## Transport frame reception (src/socket/handshake.rs,
`WhatsAppConnection::recv`) -/

/-- Outcome of processing one binary WebSocket frame inside `recv`'s
loop: either a decrypted plaintext is returned, or the frame is skipped
and the loop continues (`continue`).  `attempts` is a ghost record of
the counter values whose nonces were tried for decryption. -/
inductive RecvOutcome where
  | ok (plaintext : List Nat) (read_counter : Nat) (attempts : List Nat)
  | skip (read_counter : Nat) (attempts : List Nat)
  deriving DecidableEq

/-- One `Message::Binary` iteration of `WhatsAppConnection::recv`:
length checks, then AEAD decryption under the receive key and current
counter (empty associated data); on failure the counter is incremented
and decryption retried once with the guessed counter; if that also
fails the frame is skipped. -/
def recvStep (aead : AeadModel) (read_key : List Nat) (read_counter : Nat)
    (data : List Nat) : RecvOutcome :=
  if data.length < 4 then .skip read_counter []
  else
    let frame_len := ((data.getD 0 0) <<< 16) ||| ((data.getD 1 0) <<< 8) ||| data.getD 2 0
    if 100000 < frame_len ∨ data.length + 100 < frame_len + 3 then .skip read_counter []
    else
      let encrypted := data.drop 3
      if encrypted.isEmpty then .skip read_counter []
      else
        let iv := List.replicate 8 0 ++ be32 (read_counter % 2 ^ 32)
        match aead.dec read_key iv [] encrypted with
        | some decrypted => .ok decrypted ((read_counter + 1) % 2 ^ 32) [read_counter]
        | none =>
          let rc := (read_counter + 1) % 2 ^ 32
          let iv2 := List.replicate 8 0 ++ be32 (rc % 2 ^ 32)
          match aead.dec read_key iv2 [] encrypted with
          | some decrypted => .ok decrypted ((rc + 1) % 2 ^ 32) [read_counter, rc]
          | none => .skip rc [read_counter, rc]

/-- Read one tag byte and then the string it introduces — the sequence
the decoder performs for every string field. -/
def readTaggedString (st : DecState) : DecRes String :=
  match Decoder.read_byte st with
  | .error e => .error e
  | .ok (tag, st') => Decoder.read_string tag st'

/-- The string `s` round-trips through the codec: wherever the bytes of
`Encoder.write_string s` occur in the input, reading a tagged string
recovers exactly `s` and consumes exactly those bytes. -/
def StringRT (s : String) : Prop :=
  ∀ data k tail, data.drop k = Encoder.write_string s ++ tail →
    readTaggedString ⟨data, k⟩ =
      .ok (s, ⟨data, k + (Encoder.write_string s).length⟩)

/-- The initiator's complete handshake activity (src/crypto/noise.rs):
message 1 out, message 2 in, message 3 out; returns both outbound
messages and the final state. -/
def initiatorFlow (aead : AeadModel) (staticKey : KeyPair) (rand : Nat)
    (m2 payload3 : List Nat) :
    Except HandshakeError (List Nat × List Nat × NoiseHandshake) :=
  let hs := NoiseHandshake.new_initiator staticKey rand
  let w1 := NoiseHandshake.write_message_1 hs
  let hs := w1.2
  match NoiseHandshake.read_message_2 aead hs m2 with
  | .error e => .error e
  | .ok (_payload2, hs) =>
    match NoiseHandshake.write_message_3 aead hs payload3 with
    | .error e => .error e
    | .ok (m3, hs) => .ok (w1.1, m3, hs)

/-- An AEAD that accepts every ciphertext and returns a fixed 32-byte
plaintext: a degenerate instance of the interface used to exhibit
concrete successful runs. -/
def acceptAead : AeadModel where
  enc := fun _ _ _ pt => pt ++ List.replicate 16 0
  dec := fun _ _ _ _ => some (List.replicate 32 0)

/-- The result `r` of a read started in state `st` stays inside the
buffer: on success the data is unchanged and the cursor moved forward,
never past the end. -/
def ProgressAt {α : Type} (st : DecState) (r : DecRes α) : Prop :=
  ∀ a st', r = .ok (a, st') →
    st'.data = st.data ∧ st.index ≤ st'.index ∧ st'.index ≤ st.data.length

/-- A reader respects the buffer bounds from every in-bounds state. -/
def Progress {α : Type} (f : DecState → DecRes α) : Prop :=
  ∀ st : DecState, st.index ≤ st.data.length → ProgressAt st (f st)

/-- The initiator state after the `ee` mix of message 2 (the point where
the first AEAD decryption happens); a name for a subterm of
`read_message_2`. -/
def rm2State1 (hs : NoiseHandshake) (message : List Nat) : NoiseHandshake :=
  let remote_e := message.take 32
  let hs := NoiseHandshake.mix_hash { hs with remote_ephemeral := some remote_e } remote_e
  let kh := NoiseHandshake.mix_key hs
    ((hs.local_ephemeral.getD NoiseHandshake.missingKeyPair).dh remote_e)
  { kh.2 with cipher := some (Cipher.new kh.1) }

/-- The initiator state after the `es` mix of message 2 (the point where
the second AEAD decryption happens). -/
def rm2State2 (hs0 : NoiseHandshake) (_msg remote_s : List Nat)
    (hs1 : NoiseHandshake) : NoiseHandshake :=
  let hs := { hs1 with remote_static := some remote_s }
  let kh := NoiseHandshake.mix_key hs
    ((hs0.local_ephemeral.getD NoiseHandshake.missingKeyPair).dh remote_s)
  { kh.2 with cipher := some (Cipher.new kh.1) }

/-- The initiator state after the `se` mix of message 3. -/
def wm3State (hs1 : NoiseHandshake) (remote_e : List Nat) : NoiseHandshake :=
  let kh := NoiseHandshake.mix_key hs1 (hs1.local_static.dh remote_e)
  { kh.2 with cipher := some (Cipher.new kh.1) }

end WM

namespace WM

theorem lor_two_mul_one (n : Nat) : 2 * n ||| 1 = 2 * n + 1 := by
  have h := Nat.lor_bit false n true 0
  simpa [Nat.bit_false, Nat.bit_true, Nat.two_mul] using h

theorem leToNat_natToLE (len : Nat) : ∀ x : Nat, x < 256 ^ len → leToNat (natToLE len x) = x := by
  induction len with
  | zero => intro x hx; interval_cases x; rfl
  | succ n ih =>
    intro x hx
    have hdiv : x / 256 < 256 ^ n := by
      rw [Nat.div_lt_iff_lt_mul (by norm_num)]
      calc x < 256 ^ (n + 1) := hx
        _ = 256 ^ n * 256 := by rw [Nat.pow_succ]
    simp only [natToLE, leToNat, ih (x / 256) hdiv]
    omega

theorem clamp_lt (k : Nat) : clamp k < 256 ^ 32 := by
  have h1 : k &&& ((2 ^ 252 - 1) * 2 ^ 3) < 2 ^ 256 := by
    calc k &&& ((2 ^ 252 - 1) * 2 ^ 3) ≤ (2 ^ 252 - 1) * 2 ^ 3 := Nat.and_le_right
      _ < 2 ^ 256 := by norm_num
  have h2 : (2 : Nat) ^ 254 < 2 ^ 256 := by norm_num
  have := Nat.or_lt_two_pow h1 h2
  calc clamp k < 2 ^ 256 := this
    _ = 256 ^ 32 := by norm_num

theorem x25519_lt (k u : Nat) : x25519 k u < 256 ^ 32 := by
  unfold x25519 P25519
  calc (clamp k * u) % (2 ^ 255 - 19) < 2 ^ 255 - 19 := Nat.mod_lt _ (by norm_num)
    _ < 256 ^ 32 := by norm_num

theorem mul_mod_rearrange (x y b : Nat) :
    (x * ((y * b) % P25519)) % P25519 = (x * y * b) % P25519 := by
  calc (x * ((y * b) % P25519)) % P25519
      = ((x % P25519) * ((y * b) % P25519 % P25519)) % P25519 := Nat.mul_mod _ _ _
    _ = ((x % P25519) * ((y * b) % P25519)) % P25519 := by
        rw [Nat.mod_mod_of_dvd _ dvd_rfl]
    _ = (x * (y * b)) % P25519 := (Nat.mul_mod _ _ _).symm
    _ = (x * y * b) % P25519 := by ring_nf

/-- C8: for any two generated key pairs, Diffie-Hellman agrees:
dh(A.private, B.public) = dh(B.private, A.public). -/
theorem c8_dh_commutative (r1 r2 : Nat) :
    (KeyPair.generate r1).dh (KeyPair.generate r2).public =
      (KeyPair.generate r2).dh (KeyPair.generate r1).public := by
  unfold KeyPair.generate KeyPair.from_private_key KeyPair.dh
  simp only
  rw [leToNat_natToLE 32 _ (clamp_lt _), leToNat_natToLE 32 _ (clamp_lt _),
      leToNat_natToLE 32 _ (x25519_lt _ _), leToNat_natToLE 32 _ (x25519_lt _ _)]
  congr 1
  unfold x25519
  rw [mul_mod_rearrange, mul_mod_rearrange]
  ring_nf

/-- C1: the decoder does not mirror the encoder — decoding the encoder's
output fails even for the simplest node (the encoder emits a packed
header byte, the decoder expects a list token). -/
theorem c1_decode_encode_fails :
    Decoder.decode (encode (Node.mk "message" [] .none)) =
      .error ⟨"invalid empty list for node"⟩ := by rfl

/-- C5 counterexample: an Identifier with device = 256 encodes through
the agent/device form with the device truncated to one byte, and decodes
to device 0 — the device field is not recovered. -/
theorem c5_counterexample :
    Encoder.write_jid ⟨"1", 0, 256, 0, "s.whatsapp.net"⟩ = [0xFA, 0, 0, 85] ∧
    Decoder.read_attr_value ⟨[0xFA, 0, 0, 85], 0⟩ =
      .ok (.jid ⟨"1", 0, 0, 0, "s.whatsapp.net"⟩, ⟨[0xFA, 0, 0, 85], 4⟩) := ⟨by rfl, by rfl⟩

/-- C2 counterexample: a frame whose decryption fails under the current
counter is retried under the incremented counter and then skipped — the
loop continues and no fatal error is reported. -/
theorem c2_counterexample :
    recvStep failAead (List.replicate 32 7) 0 [0, 0, 5, 1, 2, 3, 4, 5] =
      .skip 1 [0, 1] := by decide


theorem headerByte_eq (n : Nat) (flag : Bool) :
    Encoder.headerByte n flag = (2 * n + (if flag then 1 else 0)) % 256 := by
  unfold Encoder.headerByte
  cases flag with
  | false => simp [Nat.shiftLeft_eq, Nat.mul_comm]
  | true =>
    simp only [if_true]
    rw [Nat.shiftLeft_eq, pow_one, Nat.mul_comm n 2, lor_two_mul_one]

/-- C10: the header byte of every encoded node is
`(2 * attribute_count + content_flag) mod 256`; with 128 or more
attributes the count wraps, reproducing the header byte of a node with
128 fewer attributes, and encoding neither fails nor signals overflow. -/
theorem c10_header_byte :
    (∀ node : Node, (encode node).head? =
      some (Encoder.headerByte node.attrs.length
        (match node.content with | .none => false | _ => true))) ∧
    (∀ n flag, Encoder.headerByte n flag = (2 * n + (if flag then 1 else 0)) % 256) ∧
    (∀ n flag, 128 ≤ n → Encoder.headerByte n flag = Encoder.headerByte (n - 128) flag) := by
  refine ⟨?_, headerByte_eq, ?_⟩
  · intro node; cases node with
    | mk tag attrs content => rfl
  · intro n flag h
    rw [headerByte_eq, headerByte_eq]
    generalize (if flag then 1 else 0) = b
    omega

/-- C10 witness: a node with 128 attributes has header byte 0, the same
as an attribute-less node. -/
theorem c10_witness :
    Encoder.headerByte 128 false = Encoder.headerByte 0 false ∧
    (encode (Node.mk "a" (List.replicate 128 ("b", AttrValue.none)) .none)).head? =
      some (Encoder.headerByte 128 false) := by
  constructor
  · exact c10_header_byte.2.2 128 false (by omega)
  · exact c10_header_byte.1 (Node.mk "a" (List.replicate 128 ("b", AttrValue.none)) .none)

/-- C7 counterexample: the socket handshake state is initialized with
the 32-byte pattern itself as transcript hash (and salt and key), not
its SHA-256 digest; even after the prologue is mixed in, the hash is
not the digest of the protocol-name constant. -/
theorem c7_counterexample :
    SocketNoise.newInit.hash = NOISE_PATTERN ∧
    NOISE_PATTERN ≠ sha256 NOISE_PATTERN ∧
    (SocketNoise.new WA_HEADER).hash ≠ sha256 NOISE_PATTERN := by
  refine ⟨rfl, by decide, by decide⟩

/-- C7 amended: crypto/noise.rs initializes transcript hash and chaining
key to SHA-256 of the 32-byte protocol name and generates a fresh
ephemeral key pair; socket/handshake.rs instead seeds hash, salt and
cipher key with the 32-byte pattern itself (then mixes the prologue
header into the hash) and generates no ephemeral key of its own. -/
theorem c7_amended :
    (∀ hs rand, (NoiseHandshake.initState hs rand).hash = sha256 NOISE_PROTOCOL_NAME ∧
      (NoiseHandshake.initState hs rand).chaining_key = sha256 NOISE_PROTOCOL_NAME ∧
      (NoiseHandshake.initState hs rand).local_ephemeral = some (KeyPair.generate rand)) ∧
    NOISE_PROTOCOL_NAME.length = 32 ∧
    SocketNoise.newInit = ⟨NOISE_PATTERN, NOISE_PATTERN, NOISE_PATTERN, 0⟩ ∧
    (∀ header, SocketNoise.new header =
      ⟨sha256 (NOISE_PATTERN ++ header), NOISE_PATTERN, NOISE_PATTERN, 0⟩) :=
  ⟨fun _ _ => ⟨rfl, rfl, rfl⟩, by decide, rfl, fun _ => rfl⟩

/-- C3 amended: `new_responder` is identical to `new_initiator`, and
`split` derives the pair (send := first 32 bytes, recv := last 32 bytes)
of one HKDF expansion of the chaining key with no dependence on the
role, so two parties ending with equal chaining keys obtain identical
ordered pairs: send = send and recv = recv, not the claimed crossing. -/
theorem c3_amended :
    (∀ ls rand, NoiseHandshake.new_responder ls rand = NoiseHandshake.new_initiator ls rand) ∧
    (∀ hs : NoiseHandshake,
      NoiseHandshake.split hs =
        (Cipher.new ((Hkdf.derive (some hs.chaining_key) [] [] 64).take 32),
         Cipher.new ((Hkdf.derive (some hs.chaining_key) [] [] 64).drop 32))) ∧
    (∀ hs hs' : NoiseHandshake, hs.chaining_key = hs'.chaining_key →
      (NoiseHandshake.split hs).1.key = (NoiseHandshake.split hs').1.key ∧
      (NoiseHandshake.split hs).2.key = (NoiseHandshake.split hs').2.key) := by
  refine ⟨fun _ _ => rfl, fun hs => rfl, fun hs hs' h => ?_⟩
  unfold NoiseHandshake.split
  rw [h]
  exact ⟨rfl, rfl⟩

/-- C3 amended witness: an initiator and a responder state over
different static keys and RNG draws share the initial chaining key, and
their splits agree half-by-half. -/
theorem c3_witness :
    (NoiseHandshake.split (NoiseHandshake.new_initiator (KeyPair.generate 1) 3)).1.key =
      (NoiseHandshake.split (NoiseHandshake.new_responder (KeyPair.generate 2) 4)).1.key ∧
    (NoiseHandshake.split (NoiseHandshake.new_initiator (KeyPair.generate 1) 3)).2.key =
      (NoiseHandshake.split (NoiseHandshake.new_responder (KeyPair.generate 2) 4)).2.key :=
  c3_amended.2.2 _ _ rfl


/-- C2 amended: `recv` treats no inbound-frame problem as fatal.  A
frame shorter than four bytes is skipped with the counter unchanged; a
frame whose declared length is oversized or inconsistent with the data
is skipped with the counter unchanged; and when AEAD decryption of a
well-formed frame fails under the current counter, decryption is
retried once with the guessed value `c + 1` — if the retry succeeds the
frame is accepted, and if it also fails the frame is skipped with the
counter left at the guessed value and the loop continues. -/
theorem c2_amended :
    (∀ (aead : AeadModel) (key : List Nat) (c : Nat) (data : List Nat),
      data.length < 4 → recvStep aead key c data = .skip c []) ∧
    (∀ (aead : AeadModel) (key : List Nat) (c : Nat) (data : List Nat),
      4 ≤ data.length →
      (100000 < ((data.getD 0 0) <<< 16) ||| ((data.getD 1 0) <<< 8) ||| data.getD 2 0 ∨
        data.length + 100 <
          ((((data.getD 0 0) <<< 16) ||| ((data.getD 1 0) <<< 8) ||| data.getD 2 0) + 3)) →
      recvStep aead key c data = .skip c []) ∧
    (∀ (aead : AeadModel) (key : List Nat) (c : Nat) (data : List Nat),
      4 ≤ data.length →
      ((data.getD 0 0) <<< 16) ||| ((data.getD 1 0) <<< 8) ||| data.getD 2 0 ≤ 100000 →
      (((data.getD 0 0) <<< 16) ||| ((data.getD 1 0) <<< 8) ||| data.getD 2 0) + 3
        ≤ data.length + 100 →
      aead.dec key (List.replicate 8 0 ++ be32 (c % 2 ^ 32)) [] (data.drop 3) = none →
      recvStep aead key c data =
        match aead.dec key (List.replicate 8 0 ++ be32 ((c + 1) % 2 ^ 32 % 2 ^ 32)) []
            (data.drop 3) with
        | some pt => .ok pt (((c + 1) % 2 ^ 32 + 1) % 2 ^ 32) [c, (c + 1) % 2 ^ 32]
        | none => .skip ((c + 1) % 2 ^ 32) [c, (c + 1) % 2 ^ 32]) := by
  refine ⟨?_, ?_, ?_⟩
  · intro aead key c data h
    unfold recvStep
    rw [if_pos h]
  · intro aead key c data hlen hbad
    unfold recvStep
    rw [if_neg (by omega), if_pos hbad]
  · intro aead key c data hlen hfl hfl2 hfail
    have hne : ¬(data.drop 3).isEmpty := by
      rw [List.isEmpty_iff, ← List.length_eq_zero, List.length_drop]
      omega
    unfold recvStep
    rw [if_neg (by omega), if_neg (by omega), if_neg hne]
    simp only [hfail]

/-- C2 amended witness: a three-byte frame and an oversized-length frame
are each skipped with the counter unchanged, and a frame the AEAD
rejects under both counters is skipped with the counter advanced to the
guessed value. -/
theorem c2_witness :
    recvStep failAead [1, 2] 5 [0, 0, 9] = .skip 5 [] ∧
    recvStep failAead [1, 2] 5 [9, 9, 9, 9, 9] = .skip 5 [] ∧
    recvStep failAead [1, 2] 5 [0, 0, 9, 9, 9, 9, 9] = .skip 6 [5, 6] := by
  refine ⟨c2_amended.1 failAead [1, 2] 5 [0, 0, 9] (by decide),
    c2_amended.2.1 failAead [1, 2] 5 [9, 9, 9, 9, 9] (by decide) (by decide), ?_⟩
  have h := c2_amended.2.2 failAead [1, 2] 5 [0, 0, 9, 9, 9, 9, 9]
    (by decide) (by decide) (by decide) (by rfl)
  simpa using h

theorem tokens_length : SINGLE_BYTE_TOKENS.length = 236 := by rfl

theorem get_token_index_spec (s : String) (i : Nat)
    (h : get_token_index s = some i) :
    i < 236 ∧ get_token i = some s ∧ s ≠ "" := by
  unfold get_token_index at h
  rcases Option.map_eq_some'.mp h with ⟨p, hfind, hp1⟩
  have hmem : p ∈ (SINGLE_BYTE_TOKENS.enum.filter (fun q => q.2 != "")).reverse :=
    List.mem_of_find?_eq_some hfind
  rw [List.mem_reverse] at hmem
  have hmem2 := List.mem_filter.mp hmem
  have henum : (p.1, p.2) ∈ SINGLE_BYTE_TOKENS.enum := by
    rw [Prod.mk.eta]; exact hmem2.1
  have hget : SINGLE_BYTE_TOKENS.get? p.1 = some p.2 := by
    rw [List.get?_eq_getElem?]
    exact List.mk_mem_enum_iff_getElem?.mp henum
  have hlt : p.1 < 236 := by
    rw [← tokens_length]
    exact List.get?_eq_some.mp hget |>.choose
  have hs2 : p.2 = s := by
    have hpred := List.find?_some hfind
    simpa using hpred
  have hne : p.2 ≠ "" := by simpa using hmem2.2
  subst hp1
  exact ⟨hlt, by unfold get_token; rw [hget, hs2], by rw [← hs2]; exact hne⟩

theorem get_token_index_isSome (s : String) (hmem : s ∈ SINGLE_BYTE_TOKENS)
    (hne : s ≠ "") : ∃ i, get_token_index s = some i := by
  rcases List.mem_iff_get?.mp hmem with ⟨i, hi⟩
  have hex : ∃ p ∈ (SINGLE_BYTE_TOKENS.enum.filter (fun q => q.2 != "")).reverse,
      (fun q => q.2 == s) p := by
    refine ⟨(i, s), ?_, by simp⟩
    rw [List.mem_reverse, List.mem_filter]
    constructor
    · exact List.mk_mem_enum_iff_getElem?.mpr (by rw [← List.get?_eq_getElem?]; exact hi)
    · simpa using hne
  have := List.find?_isSome.mpr hex
  rcases Option.isSome_iff_exists.mp this with ⟨p, hp⟩
  exact ⟨p.1, by unfold get_token_index; rw [hp]; rfl⟩

/-- C9: reverse lookup then forward lookup is the identity on every
non-empty entry of the single-byte token table. -/
theorem c9_token_roundtrip :
    ∀ s ∈ SINGLE_BYTE_TOKENS, s ≠ "" →
      ∃ i, get_token_index s = some i ∧ get_token i = some s := by
  intro s hmem hne
  rcases get_token_index_isSome s hmem hne with ⟨i, hi⟩
  exact ⟨i, hi, (get_token_index_spec s i hi).2.1⟩

/-- C9 witness: the entry "message" maps to index 19 and back. -/
theorem c9_witness :
    ∃ i, get_token_index "message" = some i ∧ get_token i = some "message" :=
  c9_token_roundtrip "message" (by decide) (by decide)



theorem progressAt_error {α : Type} {st : DecState} {e : DecodeError} :
    ProgressAt st (.error e : DecRes α) := by
  intro a st' h
  exact Except.noConfusion h

theorem progressAt_ok {α : Type} {st : DecState} {a : α}
    (h : st.index ≤ st.data.length) : ProgressAt st (.ok (a, st)) := by
  intro b st' hb
  cases hb
  exact ⟨rfl, Nat.le_refl _, h⟩

theorem ProgressAt.bound {α : Type} {st st₁ : DecState} {x : DecRes α} {a : α}
    (hx : ProgressAt st x) (h : x = .ok (a, st₁)) :
    st₁.index ≤ st₁.data.length := by
  have hb := hx a st₁ h
  rw [hb.1]
  exact hb.2.2

theorem progressAt_dbind {α β : Type} {st : DecState} {x : DecRes α}
    {g : α → DecState → DecRes β} (hx : ProgressAt st x)
    (hg : ∀ a st₁, x = .ok (a, st₁) → st₁.index ≤ st₁.data.length →
      ProgressAt st₁ (g a st₁)) :
    ProgressAt st (Decoder.dbind x g) := by
  intro b st' h
  unfold Decoder.dbind at h
  cases hxv : x with
  | error e => rw [hxv] at h; exact Except.noConfusion h
  | ok p =>
    obtain ⟨a, st₁⟩ := p
    rw [hxv] at h
    have h1 := hx a st₁ hxv
    have h2 := hg a st₁ hxv (hx.bound hxv) b st' h
    refine ⟨h2.1.trans h1.1, h1.2.1.trans h2.2.1, ?_⟩
    rw [← h1.1]
    exact h2.2.2

theorem progressAt_dlift {α : Type} {st : DecState} {x : Except DecodeError α}
    (h : st.index ≤ st.data.length) : ProgressAt st (Decoder.dlift x st) := by
  intro a st' ha
  unfold Decoder.dlift at ha
  cases x with
  | error e => exact Except.noConfusion ha
  | ok v => cases ha; exact ⟨rfl, Nat.le_refl _, h⟩

theorem progress_read_byte : Progress Decoder.read_byte := by
  intro st hle a st' h
  unfold Decoder.read_byte at h
  split at h
  · exact Except.noConfusion h
  · rename_i hlt
    cases h
    exact ⟨rfl, Nat.le_succ _, by dsimp only; omega⟩

theorem progress_read_bytes (n : Nat) : Progress (Decoder.read_bytes n) := by
  intro st hle a st' h
  unfold Decoder.read_bytes at h
  split at h
  · exact Except.noConfusion h
  · rename_i hlt
    cases h
    exact ⟨rfl, Nat.le_add_right _ _, by dsimp only; omega⟩

theorem progress_read_int_aux (count : Nat) :
    ∀ acc, Progress (Decoder.read_int_aux count acc) := by
  induction count with
  | zero => intro acc st hle; exact progressAt_ok hle
  | succ n ih =>
    intro acc st hle
    unfold Decoder.read_int_aux
    exact progressAt_dbind (progress_read_byte st hle)
      (fun b st₁ _ hle₁ => ih _ st₁ hle₁)

theorem progress_read_int (n : Nat) : Progress (Decoder.read_int n) :=
  fun st hle => progress_read_int_aux n 0 st hle

theorem progress_read_string (tag : Nat) : Progress (Decoder.read_string tag) := by
  intro st hle
  unfold Decoder.read_string
  split
  · exact progressAt_ok hle
  · split
    · refine progressAt_dbind (progress_read_byte st hle) (fun len st₁ _ hle₁ => ?_)
      split
      · exact progressAt_ok hle₁
      · exact progressAt_dbind (progress_read_bytes len st₁ hle₁)
          (fun bytes st₂ _ hle₂ => progressAt_dlift hle₂)
    · split
      · refine progressAt_dbind (progress_read_int 2 st hle) (fun len st₁ _ hle₁ => ?_)
        exact progressAt_dbind (progress_read_bytes len st₁ hle₁)
          (fun bytes st₂ _ hle₂ => progressAt_dlift hle₂)
      · split
        · refine progressAt_dbind (progress_read_int 3 st hle) (fun len st₁ _ hle₁ => ?_)
          exact progressAt_dbind (progress_read_bytes len st₁ hle₁)
            (fun bytes st₂ _ hle₂ => progressAt_dlift hle₂)
        · split
          · refine progressAt_dbind (progress_read_byte st hle) (fun index st₁ _ hle₁ => ?_)
            split
            · exact progressAt_ok hle₁
            · exact progressAt_error
          · split
            · exact progressAt_ok hle
            · exact progressAt_error

theorem progress_read_jid (marker : Nat) : Progress (Decoder.read_jid marker) := by
  intro st hle
  unfold Decoder.read_jid
  split
  · refine progressAt_dbind (progress_read_byte st hle) (fun t st₁ _ hle₁ => ?_)
    refine progressAt_dbind (progress_read_string t st₁ hle₁) (fun user st₂ _ hle₂ => ?_)
    refine progressAt_dbind (progress_read_byte st₂ hle₂) (fun t2 st₃ _ hle₃ => ?_)
    exact progressAt_dbind (progress_read_string t2 st₃ hle₃)
      (fun server st₄ _ hle₄ => progressAt_ok hle₄)
  · split
    · refine progressAt_dbind (progress_read_byte st hle) (fun agent st₁ _ hle₁ => ?_)
      refine progressAt_dbind (progress_read_byte st₁ hle₁) (fun device st₂ _ hle₂ => ?_)
      refine progressAt_dbind (progress_read_byte st₂ hle₂) (fun t st₃ _ hle₃ => ?_)
      exact progressAt_dbind (progress_read_string t st₃ hle₃)
        (fun user st₄ _ hle₄ => progressAt_ok hle₄)
    · exact progressAt_error

theorem progress_read_attr_value : Progress Decoder.read_attr_value := by
  intro st hle
  unfold Decoder.read_attr_value
  refine progressAt_dbind (progress_read_byte st hle) (fun tag st₁ _ hle₁ => ?_)
  split
  · exact progressAt_ok hle₁
  · split
    · exact progressAt_dbind (progress_read_jid tag st₁ hle₁)
        (fun jid st₂ _ hle₂ => progressAt_ok hle₂)
    · split
      · refine progressAt_dbind (progress_read_byte st₁ hle₁) (fun len_tag st₂ _ hle₂ => ?_)
        refine progressAt_dbind ?_ (fun len st₃ _ hle₃ =>
          progressAt_dbind (progress_read_bytes len st₃ hle₃)
            (fun bytes st₄ _ hle₄ => progressAt_ok hle₄))
        split
        · exact progressAt_ok hle₂
        · split
          · exact progress_read_byte st₂ hle₂
          · split
            · exact progress_read_int 2 st₂ hle₂
            · split
              · exact progress_read_int 3 st₂ hle₂
              · exact progressAt_error
      · exact progressAt_dbind (progress_read_string tag st₁ hle₁)
          (fun s st₂ _ hle₂ => progressAt_ok hle₂)

theorem progress_read_list_size (token : Nat) : Progress (Decoder.read_list_size token) := by
  intro st hle
  unfold Decoder.read_list_size
  split
  · exact progressAt_ok hle
  · split
    · exact progress_read_byte st hle
    · split
      · exact progress_read_int 2 st hle
      · exact progressAt_error

theorem progress_read_attr_pairs (count : Nat) : Progress (Decoder.read_attr_pairs count) := by
  induction count with
  | zero => intro st hle; exact progressAt_ok hle
  | succ n ih =>
    intro st hle
    unfold Decoder.read_attr_pairs
    refine progressAt_dbind (progress_read_byte st hle) (fun km st₁ _ hle₁ => ?_)
    refine progressAt_dbind (progress_read_string km st₁ hle₁) (fun key st₂ _ hle₂ => ?_)
    refine progressAt_dbind (progress_read_attr_value st₂ hle₂) (fun v st₃ _ hle₃ => ?_)
    exact progressAt_dbind (ih st₃ hle₃) (fun rest st₄ _ hle₄ => progressAt_ok hle₄)

theorem progress_read_many {α : Type} {p : DecState → DecRes α} (hp : Progress p)
    (count : Nat) : Progress (Decoder.read_many p count) := by
  induction count with
  | zero => intro st hle; exact progressAt_ok hle
  | succ n ih =>
    intro st hle
    unfold Decoder.read_many
    refine progressAt_dbind (hp st hle) (fun a st₁ _ hle₁ => ?_)
    exact progressAt_dbind (ih st₁ hle₁) (fun rest st₂ _ hle₂ => progressAt_ok hle₂)

theorem progress_read_node (fuel : Nat) : Progress (Decoder.read_node fuel) := by
  induction fuel with
  | zero => intro st hle; exact progressAt_error
  | succ n ih =>
    intro st hle
    unfold Decoder.read_node
    refine progressAt_dbind (progress_read_byte st hle) (fun token st₁ _ hle₁ => ?_)
    refine progressAt_dbind (progress_read_list_size token st₁ hle₁) (fun size st₂ _ hle₂ => ?_)
    split
    · exact progressAt_error
    · refine progressAt_dbind (progress_read_byte st₂ hle₂) (fun tm st₃ _ hle₃ => ?_)
      refine progressAt_dbind (progress_read_string tm st₃ hle₃) (fun tag st₄ _ hle₄ => ?_)
      refine progressAt_dbind (progress_read_attr_pairs _ st₄ hle₄) (fun attrs st₅ _ hle₅ => ?_)
      split
      · refine progressAt_dbind (progress_read_byte st₅ hle₅) (fun cm st₆ _ hle₆ => ?_)
        split
        · refine progressAt_dbind (progress_read_list_size cm st₆ hle₆) (fun len st₇ _ hle₇ => ?_)
          exact progressAt_dbind (progress_read_many ih len st₇ hle₇)
            (fun children st₈ _ hle₈ => progressAt_ok hle₈)
        · split
          · refine progressAt_dbind ?_ (fun len st₇ _ hle₇ =>
              progressAt_dbind (progress_read_bytes len st₇ hle₇)
                (fun bytes st₈ _ hle₈ => progressAt_ok hle₈))
            split
            · exact progress_read_byte st₆ hle₆
            · split
              · exact progress_read_int 2 st₆ hle₆
              · split
                · exact progress_read_int 3 st₆ hle₆
                · exact progressAt_error
          · exact progressAt_dbind (progress_read_string cm st₆ hle₆)
              (fun s st₇ _ hle₇ => progressAt_ok hle₇)
      · exact progressAt_ok hle₅



/-- C6: decoding never reads past the supplied buffer: the single-byte
and multi-byte reads check the remaining length first and fail with a
decode error otherwise; on success they take bytes only from within the
buffer; and a whole-node parse from any in-bounds cursor leaves the
cursor inside the buffer.  (The decoder is a pure function of the input
bytes: `Decoder.decode` takes only the byte list.) -/
theorem c6_decoder_bounds :
    (∀ st : DecState, st.data.length ≤ st.index →
      Decoder.read_byte st = .error ⟨"unexpected end of data"⟩) ∧
    (∀ st b st', Decoder.read_byte st = .ok (b, st') →
      st.index < st.data.length ∧ b = st.data.getD st.index 0 ∧
      st' = ⟨st.data, st.index + 1⟩) ∧
    (∀ n st, st.data.length < st.index + n →
      Decoder.read_bytes n st = .error ⟨"unexpected end of data"⟩) ∧
    (∀ n st bs st', Decoder.read_bytes n st = .ok (bs, st') →
      st.index + n ≤ st.data.length ∧ bs = (st.data.drop st.index).take n ∧
      st' = ⟨st.data, st.index + n⟩) ∧
    (∀ fuel, Progress (Decoder.read_node fuel)) := by
  refine ⟨?_, ?_, ?_, ?_, progress_read_node⟩
  · intro st h
    unfold Decoder.read_byte
    rw [if_pos h]
  · intro st b st' h
    unfold Decoder.read_byte at h
    split at h
    · exact Except.noConfusion h
    · rename_i hlt
      cases h
      exact ⟨by omega, rfl, rfl⟩
  · intro n st h
    unfold Decoder.read_bytes
    rw [if_pos h]
  · intro n st bs st' h
    unfold Decoder.read_bytes at h
    split at h
    · exact Except.noConfusion h
    · rename_i hlt
      cases h
      exact ⟨by omega, rfl, rfl⟩

/-- C6 witness: concrete out-of-bounds reads fail; a concrete successful
node parse of `[0xF8, 1, 19]` ends with the cursor at the end of the
buffer, within bounds. -/
theorem c6_witness :
    Decoder.read_byte ⟨[], 0⟩ = .error ⟨"unexpected end of data"⟩ ∧
    Decoder.read_bytes 5 ⟨[1, 2, 3], 1⟩ = .error ⟨"unexpected end of data"⟩ ∧
    ((⟨[0xF8, 1, 19], 3⟩ : DecState).data = (⟨[0xF8, 1, 19], 0⟩ : DecState).data ∧
     (⟨[0xF8, 1, 19], 0⟩ : DecState).index ≤ (⟨[0xF8, 1, 19], 3⟩ : DecState).index ∧
     (⟨[0xF8, 1, 19], 3⟩ : DecState).index ≤ (⟨[0xF8, 1, 19], 0⟩ : DecState).data.length) := by
  refine ⟨c6_decoder_bounds.1 ⟨[], 0⟩ (by decide),
    c6_decoder_bounds.2.2.1 5 ⟨[1, 2, 3], 1⟩ (by decide), ?_⟩
  exact c6_decoder_bounds.2.2.2.2 4 ⟨[0xF8, 1, 19], 0⟩ (by decide)
    (Node.mk "message" [] .none) ⟨[0xF8, 1, 19], 3⟩ (by rfl)



theorem dbind_ok {α β : Type} (a : α) (st : DecState) (f : α → DecState → DecRes β) :
    Decoder.dbind (.ok (a, st)) f = f a st := rfl

theorem dbind_assoc {α β γ : Type} (x : DecRes α) (f : α → DecState → DecRes β)
    (g : β → DecState → DecRes γ) :
    Decoder.dbind x (fun a st => Decoder.dbind (f a st) g) =
      Decoder.dbind (Decoder.dbind x f) g := by
  unfold Decoder.dbind
  cases x with
  | error e => rfl
  | ok p => rfl

theorem readTaggedString_eq (st : DecState) :
    Decoder.dbind (Decoder.read_byte st) (fun tag st' => Decoder.read_string tag st') =
      readTaggedString st := by
  unfold readTaggedString Decoder.dbind
  cases Decoder.read_byte st with
  | error e => rfl
  | ok p => rfl

theorem read_byte_of_drop {data : List Nat} {k b : Nat} {rest : List Nat}
    (h : data.drop k = b :: rest) :
    Decoder.read_byte ⟨data, k⟩ = .ok (b, ⟨data, k + 1⟩) := by
  have hk : k < data.length := by
    have hl := congrArg List.length h
    simp only [List.length_drop, List.length_cons] at hl
    omega
  have h0 : data[k]? = some b := by
    have hd := List.getElem?_drop data k 0
    rw [Nat.add_zero, h] at hd
    simpa using hd.symm
  have hgd : data.getD k 0 = b := by
    simp [List.getD_eq_getElem?_getD, h0]
  unfold Decoder.read_byte
  rw [if_neg (by dsimp only; omega)]
  dsimp only
  rw [hgd]

theorem read_bytes_of_drop {data : List Nat} {k n : Nat} {pre rest : List Nat}
    (h : data.drop k = pre ++ rest) (hn : pre.length = n) (hpos : 0 < n) :
    Decoder.read_bytes n ⟨data, k⟩ = .ok (pre, ⟨data, k + n⟩) := by
  have hl := congrArg List.length h
  simp only [List.length_drop, List.length_append] at hl
  have htake : (data.drop k).take n = pre := by
    rw [h, ← hn, List.take_left]
  unfold Decoder.read_bytes
  rw [if_neg (by dsimp only; omega)]
  dsimp only
  rw [htake]

/-- A string that the dictionary maps to a token round-trips through the
codec. -/
theorem stringRT_of_token (s : String) (i : Nat)
    (h : get_token_index s = some i) : StringRT s := by
  obtain ⟨hlt, hget, hne⟩ := get_token_index_spec s i h
  have hw : Encoder.write_string s = [i] := by
    unfold Encoder.write_string
    rw [if_neg hne, h]
  have hi0 : i ≠ 0 := by
    intro h0
    rw [h0] at hget
    have : some "" = some s := hget
    cases this
    exact hne rfl
  intro data k tail hdrop
  rw [hw] at hdrop ⊢
  rw [← readTaggedString_eq, read_byte_of_drop hdrop, dbind_ok]
  unfold Decoder.read_string
  rw [if_neg hi0, if_neg (by omega), if_neg (by omega), if_neg (by omega),
    if_neg (by omega)]
  rw [hget]
  rfl

/-- A non-token string of fewer than 256 UTF-8 bytes that survives UTF-8
validation round-trips through the codec. -/
theorem stringRT_short (s : String) (hne : s ≠ "")
    (hnotok : get_token_index s = none)
    (hpos : 0 < (strBytes s).length) (hlen : (strBytes s).length < 256)
    (hutf : Decoder.utf8OrErr (strBytes s) = .ok s) : StringRT s := by
  have hw : Encoder.write_string s =
      0xFC :: (strBytes s).length :: strBytes s := by
    unfold Encoder.write_string
    rw [if_neg hne, hnotok]
    simp only [if_pos hlen, Nat.mod_eq_of_lt hlen]
  intro data k tail hdrop
  rw [hw] at hdrop ⊢
  have hd1 : data.drop (k + 1) = (strBytes s).length :: (strBytes s ++ tail) := by
    have := congrArg (List.drop 1) hdrop
    simpa [List.drop_drop, Nat.add_comm 1 k] using this
  have hd2 : data.drop (k + 1 + 1) = strBytes s ++ tail := by
    have := congrArg (List.drop 1) hd1
    simpa [List.drop_drop, Nat.add_comm 1 (k + 1)] using this
  rw [← readTaggedString_eq, read_byte_of_drop hdrop, dbind_ok]
  unfold Decoder.read_string
  rw [if_neg (by omega), if_pos rfl, read_byte_of_drop hd1, dbind_ok,
    if_neg (by omega), read_bytes_of_drop hd2 rfl hpos, dbind_ok]
  unfold Decoder.dlift
  rw [hutf]
  have harith : k + 1 + 1 + (strBytes s).length = k + ((strBytes s).length + 1 + 1) := by
    omega
  rw [harith]
  rfl



/-- C5 amended: the plain wire form is chosen exactly when raw agent and
device are both zero.  A plain-form JID whose user and server strings
round-trip through the string codec decodes back with the same four
fields.  An agent/device-form JID decodes back with the same four fields
only under the conditions the encoding does not destroy: device < 256
(`device as u8` truncates), raw agent outside {1, 128, 129} (which
`JID::new_ad` remaps to special servers), and server equal to
"s.whatsapp.net" (the AD form does not transmit the domain). -/
theorem c5_amended :
    (∀ jid : JID, (∃ rest, Encoder.write_jid jid = 0xF9 :: rest) ↔
      (jid.raw_agent = 0 ∧ jid.device = 0)) ∧
    (∀ jid : JID, jid.raw_agent = 0 → jid.device = 0 →
      StringRT jid.user → StringRT jid.server →
      Decoder.read_attr_value ⟨Encoder.write_jid jid, 0⟩ =
        .ok (.jid ⟨jid.user, 0, 0, 0, jid.server⟩,
          ⟨Encoder.write_jid jid, (Encoder.write_jid jid).length⟩)) ∧
    (∀ jid : JID, (0 < jid.raw_agent ∨ 0 < jid.device) →
      jid.raw_agent ≠ 1 → jid.raw_agent ≠ 128 → jid.raw_agent ≠ 129 →
      jid.device < 256 → jid.server = JID.DEFAULT_USER → StringRT jid.user →
      Decoder.read_attr_value ⟨Encoder.write_jid jid, 0⟩ =
        .ok (.jid ⟨jid.user, jid.raw_agent, jid.device, 0, jid.server⟩,
          ⟨Encoder.write_jid jid, (Encoder.write_jid jid).length⟩)) := by
  refine ⟨?_, ?_, ?_⟩
  · intro jid
    constructor
    · intro ⟨rest, hrest⟩
      unfold Encoder.write_jid at hrest
      split at hrest
      · cases hrest
      · rename_i hcond
        omega
    · intro ⟨h1, h2⟩
      unfold Encoder.write_jid
      rw [if_neg (by omega)]
      exact ⟨Encoder.write_string jid.user ++ Encoder.write_string jid.server, rfl⟩
  · intro jid h1 h2 hu hs
    have hw : Encoder.write_jid jid =
        0xF9 :: (Encoder.write_string jid.user ++ Encoder.write_string jid.server) := by
      unfold Encoder.write_jid
      rw [if_neg (by omega)]
      rfl
    rw [hw]
    unfold Decoder.read_attr_value
    rw [read_byte_of_drop (by rw [List.drop_zero]), dbind_ok]
    rw [if_neg (by omega), if_pos (Or.inl rfl)]
    unfold Decoder.read_jid
    rw [if_pos rfl]
    rw [dbind_assoc, readTaggedString_eq,
      hu _ 1 (Encoder.write_string jid.server)
        (by rw [List.drop_one, List.tail_cons]), dbind_ok]
    rw [dbind_assoc, readTaggedString_eq,
      hs _ (1 + (Encoder.write_string jid.user).length) []
        (by
          have : (0xF9 :: (Encoder.write_string jid.user ++ Encoder.write_string jid.server)).drop
              (1 + (Encoder.write_string jid.user).length) =
              (Encoder.write_string jid.user ++ Encoder.write_string jid.server).drop
                (Encoder.write_string jid.user).length := by
            rw [Nat.add_comm 1, List.drop_succ_cons]
          rw [this, List.drop_left, List.append_nil]), dbind_ok]
    unfold JID.new
    have harith : 1 + (Encoder.write_string jid.user).length +
        (Encoder.write_string jid.server).length =
        (0xF9 :: (Encoder.write_string jid.user ++ Encoder.write_string jid.server)).length := by
      simp [List.length_append]
      omega
    rw [harith, dbind_ok]
  · intro jid had hn1 hn128 hn129 hdev hserver hu
    have hw : Encoder.write_jid jid =
        0xFA :: jid.raw_agent :: (jid.device % 256) :: Encoder.write_string jid.user := by
      unfold Encoder.write_jid
      rw [if_pos had]
      rfl
    rw [hw]
    unfold Decoder.read_attr_value
    rw [read_byte_of_drop (by rw [List.drop_zero]), dbind_ok]
    rw [if_neg (by omega), if_pos (Or.inr rfl)]
    unfold Decoder.read_jid
    rw [if_neg (by omega), if_pos rfl]
    rw [read_byte_of_drop (by rw [List.drop_one, List.tail_cons]), dbind_ok]
    rw [read_byte_of_drop (by
      rw [show (1 : Nat) + 1 = 2 from rfl]
      rw [show (0xFA :: jid.raw_agent :: (jid.device % 256) ::
        Encoder.write_string jid.user).drop 2 =
        (jid.device % 256) :: Encoder.write_string jid.user from rfl]), dbind_ok]
    rw [dbind_assoc, readTaggedString_eq,
      hu _ 3 [] (by
        rw [show (0xFA :: jid.raw_agent :: (jid.device % 256) ::
          Encoder.write_string jid.user).drop 3 = Encoder.write_string jid.user from rfl,
          List.append_nil]), dbind_ok]
    unfold JID.new_ad
    rw [if_neg hn1, if_neg hn128, if_neg hn129]
    rw [Nat.mod_eq_of_lt hdev, hserver]
    have harith : 3 + (Encoder.write_string jid.user).length =
        (0xFA :: jid.raw_agent :: jid.device ::
          Encoder.write_string jid.user).length := by
      simp
      omega
    rw [harith, dbind_ok]

/-- C5 amended witness: a plain JID with token user "1" and server
"s.whatsapp.net" decodes back exactly; an AD JID with agent 5 and
device 7 decodes back exactly. -/
theorem c5_witness :
    Decoder.read_attr_value ⟨Encoder.write_jid ⟨"1", 0, 0, 0, "s.whatsapp.net"⟩, 0⟩ =
      .ok (.jid ⟨"1", 0, 0, 0, "s.whatsapp.net"⟩,
        ⟨Encoder.write_jid ⟨"1", 0, 0, 0, "s.whatsapp.net"⟩,
         (Encoder.write_jid ⟨"1", 0, 0, 0, "s.whatsapp.net"⟩).length⟩) ∧
    Decoder.read_attr_value ⟨Encoder.write_jid ⟨"1", 5, 7, 0, "s.whatsapp.net"⟩, 0⟩ =
      .ok (.jid ⟨"1", 5, 7, 0, "s.whatsapp.net"⟩,
        ⟨Encoder.write_jid ⟨"1", 5, 7, 0, "s.whatsapp.net"⟩,
         (Encoder.write_jid ⟨"1", 5, 7, 0, "s.whatsapp.net"⟩).length⟩) := by
  constructor
  · exact c5_amended.2.1 ⟨"1", 0, 0, 0, "s.whatsapp.net"⟩ rfl rfl
      (stringRT_of_token "1" 85 (by rfl))
      (stringRT_of_token "s.whatsapp.net" 3 (by rfl))
  · exact c5_amended.2.2 ⟨"1", 5, 7, 0, "s.whatsapp.net"⟩ (Or.inl (by decide))
      (by decide) (by decide) (by decide) (by decide) rfl
      (stringRT_of_token "1" 85 (by rfl))



theorem shiftRight_zero_of_lt {c n k : Nat} (h : c < 2 ^ n) (hnk : n ≤ k) :
    c >>> k = 0 := by
  rw [Nat.shiftRight_eq_div_pow]
  exact Nat.div_eq_of_lt (lt_of_lt_of_le h (Nat.pow_le_pow_right (by omega) hnk))

theorem cipher_decrypt_eq (aead : AeadModel) (c : Cipher) (ct ad : List Nat) :
    Cipher.decrypt aead c ct ad =
      (match aead.dec c.key (Cipher.nonceBytes (c.nonce_counter % 2 ^ 64)) ad ct with
        | some pt => (.ok pt, ⟨c.key, (c.nonce_counter + 1) % 2 ^ 64⟩)
        | none => (.error .decryptionFailed, ⟨c.key, (c.nonce_counter + 1) % 2 ^ 64⟩)) := rfl

theorem cipher_encrypt_eq (aead : AeadModel) (c : Cipher) (pt ad : List Nat) :
    Cipher.encrypt aead c pt ad =
      (aead.enc c.key (Cipher.nonceBytes (c.nonce_counter % 2 ^ 64)) ad pt,
       ⟨c.key, (c.nonce_counter + 1) % 2 ^ 64⟩) := rfl

theorem decrypt_and_hash_log (aead : AeadModel) (hs : NoiseHandshake)
    (ct pt : List Nat) (hs' : NoiseHandshake)
    (h : NoiseHandshake.decrypt_and_hash aead hs ct = .ok (pt, hs')) :
    ∃ c, hs.cipher = some c ∧
      hs'.nonce_log = hs.nonce_log ++ [Cipher.nonceBytes (c.nonce_counter % 2 ^ 64)] ∧
      hs'.cipher = some ⟨c.key, (c.nonce_counter + 1) % 2 ^ 64⟩ := by
  unfold NoiseHandshake.decrypt_and_hash at h
  cases hc : hs.cipher with
  | none => rw [hc] at h; exact Except.noConfusion h
  | some c =>
    simp only [hc, cipher_decrypt_eq, Cipher.next_nonce] at h
    cases hd : aead.dec c.key (Cipher.nonceBytes (c.nonce_counter % 2 ^ 64)) hs.hash ct with
    | none =>
      rw [hd] at h
      exact Except.noConfusion h
    | some pt' =>
      rw [hd] at h
      cases h
      exact ⟨c, rfl, rfl, rfl⟩

theorem encrypt_and_hash_log (aead : AeadModel) (hs : NoiseHandshake)
    (pt ct : List Nat) (hs' : NoiseHandshake)
    (h : NoiseHandshake.encrypt_and_hash aead hs pt = .ok (ct, hs')) :
    ∃ c, hs.cipher = some c ∧
      hs'.nonce_log = hs.nonce_log ++ [Cipher.nonceBytes (c.nonce_counter % 2 ^ 64)] ∧
      hs'.cipher = some ⟨c.key, (c.nonce_counter + 1) % 2 ^ 64⟩ := by
  unfold NoiseHandshake.encrypt_and_hash at h
  cases hc : hs.cipher with
  | none => rw [hc] at h; exact Except.noConfusion h
  | some c =>
    simp only [hc, cipher_encrypt_eq, Cipher.next_nonce] at h
    cases h
    exact ⟨c, rfl, rfl, rfl⟩



theorem read_message_2_eq (aead : AeadModel) (hs : NoiseHandshake) (message : List Nat) :
    NoiseHandshake.read_message_2 aead hs message =
      if message.length < 32 then .error .messageTooShort
      else if message.length < 80 then .error .slicePanic
      else
        match NoiseHandshake.decrypt_and_hash aead (rm2State1 hs message)
            ((message.drop 32).take 48) with
        | .error _ => .error .decryptionFailed
        | .ok (remote_s, hs1) =>
          if remote_s.length ≠ 32 then .error .invalidKeySize
          else
            match NoiseHandshake.decrypt_and_hash aead
                (rm2State2 hs message remote_s hs1) (message.drop 80) with
            | .error _ => .error .decryptionFailed
            | .ok (payload, hs2) => .ok (payload, hs2) := rfl

theorem write_message_3_eq (aead : AeadModel) (hs : NoiseHandshake) (payload : List Nat) :
    NoiseHandshake.write_message_3 aead hs payload =
      match NoiseHandshake.encrypt_and_hash aead hs hs.local_static.public with
      | .error _ => .error .encryptionFailed
      | .ok (encrypted_s, hs1) =>
        match hs1.remote_ephemeral with
        | none => .error .missingRemoteKey
        | some remote_e =>
          match NoiseHandshake.encrypt_and_hash aead (wm3State hs1 remote_e) payload with
          | .error _ => .error .encryptionFailed
          | .ok (encrypted_payload, hs2) =>
            .ok (encrypted_s ++ encrypted_payload, hs2) := rfl

theorem rm2State1_counter (hs : NoiseHandshake) (m : List Nat) :
    ((rm2State1 hs m).cipher).map (fun c => c.nonce_counter) = some 0 := by
  unfold rm2State1 NoiseHandshake.mix_key NoiseHandshake.mix_hash
  rfl

theorem rm2State1_nonce_log (hs : NoiseHandshake) (m : List Nat) :
    (rm2State1 hs m).nonce_log = hs.nonce_log := by
  unfold rm2State1 NoiseHandshake.mix_key NoiseHandshake.mix_hash
  rfl

theorem rm2State2_counter (hs0 : NoiseHandshake) (m rs : List Nat) (hs1 : NoiseHandshake) :
    ((rm2State2 hs0 m rs hs1).cipher).map (fun c => c.nonce_counter) = some 0 := by
  unfold rm2State2 NoiseHandshake.mix_key
  rfl

theorem rm2State2_nonce_log (hs0 : NoiseHandshake) (m rs : List Nat) (hs1 : NoiseHandshake) :
    (rm2State2 hs0 m rs hs1).nonce_log = hs1.nonce_log := by
  unfold rm2State2 NoiseHandshake.mix_key
  rfl

theorem wm3State_counter (hs1 : NoiseHandshake) (re : List Nat) :
    ((wm3State hs1 re).cipher).map (fun c => c.nonce_counter) = some 0 := by
  unfold wm3State NoiseHandshake.mix_key
  rfl

theorem wm3State_nonce_log (hs1 : NoiseHandshake) (re : List Nat) :
    (wm3State hs1 re).nonce_log = hs1.nonce_log := by
  unfold wm3State NoiseHandshake.mix_key
  rfl

theorem read_message_2_log (aead : AeadModel) (hs : NoiseHandshake) (m : List Nat)
    (pl : List Nat) (hs' : NoiseHandshake)
    (h : NoiseHandshake.read_message_2 aead hs m = .ok (pl, hs')) :
    hs'.nonce_log = hs.nonce_log ++ [Cipher.nonceBytes 0, Cipher.nonceBytes 0] ∧
    ∃ c, hs'.cipher = some c ∧ c.nonce_counter = 1 := by
  rw [read_message_2_eq] at h
  split at h
  · exact Except.noConfusion h
  · split at h
    · exact Except.noConfusion h
    · split at h
      · exact Except.noConfusion h
      · rename_i remote_s hs₁ heq₁
        split at h
        · exact Except.noConfusion h
        · split at h
          · exact Except.noConfusion h
          · rename_i payload hs₂ heq₂
            cases h
            obtain ⟨c₁, hc₁, hlog₁, hcip₁⟩ := decrypt_and_hash_log _ _ _ _ _ heq₁
            obtain ⟨c₂, hc₂, hlog₂, hcip₂⟩ := decrypt_and_hash_log _ _ _ _ _ heq₂
            have hctr₁ : c₁.nonce_counter = 0 := by
              have hm := rm2State1_counter hs m
              rw [hc₁] at hm
              simpa using hm
            have hctr₂ : c₂.nonce_counter = 0 := by
              have hm := rm2State2_counter hs m remote_s hs₁
              rw [hc₂] at hm
              simpa using hm
            rw [rm2State1_nonce_log, hctr₁] at hlog₁
            rw [rm2State2_nonce_log, hctr₂] at hlog₂
            rw [hctr₂] at hcip₂
            constructor
            · rw [hlog₂, hlog₁]
              simp
            · exact ⟨_, hcip₂, by norm_num⟩

theorem write_message_3_log (aead : AeadModel) (hs : NoiseHandshake)
    (c : Cipher) (p m3 : List Nat) (hs' : NoiseHandshake)
    (hc : hs.cipher = some c)
    (h : NoiseHandshake.write_message_3 aead hs p = .ok (m3, hs')) :
    hs'.nonce_log = hs.nonce_log ++
      [Cipher.nonceBytes (c.nonce_counter % 2 ^ 64), Cipher.nonceBytes 0] := by
  rw [write_message_3_eq] at h
  split at h
  · exact Except.noConfusion h
  · rename_i enc_s hs₁ heq₁
    split at h
    · exact Except.noConfusion h
    · rename_i remote_e heq_re
      split at h
      · exact Except.noConfusion h
      · rename_i enc_p hs₂ heq₂
        cases h
        obtain ⟨c₁, hc₁, hlog₁, hcip₁⟩ := encrypt_and_hash_log _ _ _ _ _ heq₁
        obtain ⟨c₂, hc₂, hlog₂, hcip₂⟩ := encrypt_and_hash_log _ _ _ _ _ heq₂
        rw [hc] at hc₁
        cases hc₁
        have hctr₂ : c₂.nonce_counter = 0 := by
          have hm := wm3State_counter hs₁ remote_e
          rw [hc₂] at hm
          simpa using hm
        rw [wm3State_nonce_log, hctr₂] at hlog₂
        rw [hlog₂, hlog₁]
        simp



theorem initiator_start_log (staticKey : KeyPair) (rand : Nat) :
    ((NoiseHandshake.write_message_1
      (NoiseHandshake.new_initiator staticKey rand)).2).nonce_log = [] := by
  unfold NoiseHandshake.write_message_1 NoiseHandshake.mix_hash
    NoiseHandshake.new_initiator NoiseHandshake.initState
  rfl

theorem initiatorFlow_eq (aead : AeadModel) (staticKey : KeyPair) (rand : Nat)
    (m2 payload3 : List Nat) :
    initiatorFlow aead staticKey rand m2 payload3 =
      match NoiseHandshake.read_message_2 aead
          (NoiseHandshake.write_message_1 (NoiseHandshake.new_initiator staticKey rand)).2
          m2 with
      | .error e => .error e
      | .ok (_, hs) =>
        match NoiseHandshake.write_message_3 aead hs payload3 with
        | .error e => .error e
        | .ok (m3, hs) =>
          .ok ((NoiseHandshake.write_message_1
            (NoiseHandshake.new_initiator staticKey rand)).1, m3, hs) := rfl

theorem initiator_flow_log (aead : AeadModel) (staticKey : KeyPair) (rand : Nat)
    (m2 payload3 m1 m3 : List Nat) (hs : NoiseHandshake)
    (h : initiatorFlow aead staticKey rand m2 payload3 = .ok (m1, m3, hs)) :
    hs.nonce_log = [Cipher.nonceBytes 0, Cipher.nonceBytes 0,
      Cipher.nonceBytes 1, Cipher.nonceBytes 0] := by
  rw [initiatorFlow_eq] at h
  split at h
  · exact Except.noConfusion h
  · rename_i pl hsA heqR2
    split at h
    · exact Except.noConfusion h
    · rename_i m3' hsB heqW3
      cases h
      obtain ⟨hlogA, cA, hcA, hctrA⟩ := read_message_2_log _ _ _ _ _ heqR2
      have hlogB := write_message_3_log _ _ _ _ _ _ hcA heqW3
      rw [hctrA] at hlogB
      rw [initiator_start_log] at hlogA
      have h1 : (1 : Nat) % 2 ^ 64 = 1 := Nat.mod_eq_of_lt (by norm_num)
      rw [h1] at hlogB
      rw [hlogB, hlogA]
      simp

/-- C4: every AEAD nonce of the handshake is 12 bytes with the high
8 bytes zero and the per-key counter big-endian in the low 4 bytes
(socket `generate_iv` directly; `Cipher::next_nonce` whenever its u64
counter is below 2^32, as it always is during a handshake); the counter
is reset to zero on every rekey (`mix_into_key`, and `Cipher::new`
installed after every `mix_key`) and incremented by exactly one on every
use; in the initiator's complete three-message flow the four AEAD
operations use nonces of counters 0, 0, 1, 0 of their successive keys. -/
theorem c4_nonce_discipline :
    (∀ s : SocketNoise, s.generate_iv = List.replicate 8 0 ++ be32 (s.counter % 2 ^ 32)) ∧
    (∀ s x, (SocketNoise.mix_into_key s x).counter = 0) ∧
    (∀ aead s pt, (SocketNoise.encrypt aead s pt).2.counter = (s.counter + 1) % 2 ^ 32) ∧
    (∀ aead s ct pt s', SocketNoise.decrypt aead s ct = .ok (pt, s') →
      s'.counter = (s.counter + 1) % 2 ^ 32) ∧
    (∀ key, (Cipher.new key).nonce_counter = 0) ∧
    (∀ c : Cipher, c.nonce_counter < 2 ^ 32 →
      (Cipher.next_nonce c).1 = List.replicate 8 0 ++ be32 c.nonce_counter ∧
      (Cipher.next_nonce c).2.nonce_counter = c.nonce_counter + 1) ∧
    (∀ aead staticKey rand m2 payload3 m1 m3 hs,
      initiatorFlow aead staticKey rand m2 payload3 = .ok (m1, m3, hs) →
      hs.nonce_log = [Cipher.nonceBytes 0, Cipher.nonceBytes 0,
        Cipher.nonceBytes 1, Cipher.nonceBytes 0]) := by
  refine ⟨fun s => rfl, fun s x => rfl, fun aead s pt => rfl, ?_, fun key => rfl, ?_,
    fun aead sk r m2 p3 m1 m3 hs h => initiator_flow_log aead sk r m2 p3 m1 m3 hs h⟩
  · intro aead s ct pt s' h
    unfold SocketNoise.decrypt at h
    split at h
    · exact Except.noConfusion h
    · cases h
      rfl
  · intro c hc
    have hlt64 : c.nonce_counter < 2 ^ 64 := lt_of_lt_of_le hc (by norm_num)
    have h56 := shiftRight_zero_of_lt hc (by norm_num : 32 ≤ 56)
    have h48 := shiftRight_zero_of_lt hc (by norm_num : 32 ≤ 48)
    have h40 := shiftRight_zero_of_lt hc (by norm_num : 32 ≤ 40)
    have h32 := shiftRight_zero_of_lt hc (by norm_num : 32 ≤ 32)
    constructor
    · unfold Cipher.next_nonce Cipher.nonceBytes be64 be32
      rw [Nat.mod_eq_of_lt hlt64]
      simp [List.replicate, h56, h48, h40, h32]
    · unfold Cipher.next_nonce
      dsimp only
      rw [Nat.mod_eq_of_lt (by omega : c.nonce_counter + 1 < 2 ^ 64)]

/-- C4 witness: concrete instances — the next-nonce layout at counter 0,
a successful socket decryption advancing the counter by one, and a
complete initiator flow against an accepting AEAD whose four nonces use
counters 0, 0, 1, 0. -/
theorem c4_witness :
    ((Cipher.next_nonce (Cipher.new [1])).1 =
      List.replicate 8 0 ++ be32 (Cipher.new [1]).nonce_counter) ∧
    (∃ pt s', SocketNoise.decrypt acceptAead SocketNoise.newInit [9] = .ok (pt, s') ∧
      s'.counter = (SocketNoise.newInit.counter + 1) % 2 ^ 32) ∧
    (∃ m1 m3 hs, initiatorFlow acceptAead (KeyPair.generate 1) 2 (List.replicate 80 0) [] =
      .ok (m1, m3, hs) ∧
      hs.nonce_log = [Cipher.nonceBytes 0, Cipher.nonceBytes 0,
        Cipher.nonceBytes 1, Cipher.nonceBytes 0]) := by
  refine ⟨(c4_nonce_discipline.2.2.2.2.2.1 (Cipher.new [1]) (by decide)).1, ?_, ?_⟩
  · refine ⟨_, _, rfl, c4_nonce_discipline.2.2.2.1 acceptAead SocketNoise.newInit [9] _ _ rfl⟩
  · refine ⟨_, _, _, rfl, c4_nonce_discipline.2.2.2.2.2.2 acceptAead (KeyPair.generate 1) 2
      (List.replicate 80 0) [] _ _ _ rfl⟩

set_option maxRecDepth 1000000 in
set_option maxHeartbeats 4000000 in
/-- C3 counterexample: a concrete complete three-message exchange, with the
initiator running the repository code, the responder running the spec-side
mirror, and both calling the repository `split`. The two sides end with
identical ordered key pairs: the initiator send key equals the responder
SEND key (first component), and differs from the responder receive key,
refuting the claimed send/receive crossing. -/
theorem c3_counterexample :
    (fullExchange specAead (KeyPair.generate 101) (KeyPair.generate 102) 103 104
      [] []).toOption.map
      (fun p => (decide (p.1.1.key = p.2.1.key), decide (p.1.1.key = p.2.2.key),
                 decide (p.1.2.key = p.2.2.key))) = some (true, false, true) := by decide

end WM
